import Mathlib

/-!
Utilities: field export, multi-resolution scheduler, FEM image metric load.

A shallow embedding of three source files of the repository:

* `src/OldCode/ConvertVectorFieldToVTK.cxx` (namespace `ConvertVectorFieldToVTK`),
* `ExperimentalITK/Algorithms/itkMultiResolutionPDEDeformableRegistration.h`
  (namespace `itk.MultiResolutionPDEDeformableRegistration`),
* `ExperimentalITK/Numerics/FEM/itkFEMImageMetricLoad.h`
  (namespace `itk.fem.ImageMetricLoad`).

Conventions. The `int` variables of `ConvertVectorFieldToVTK.cxx` (`size`,
`totalsize`, `totalPoints`, `offset`) are integers wrapped to 32 bits in two's
complement after every operation (`wrapInt`); the `unsigned int` members of the
two headers are only stored and compared, and are naturals. A read or write
outside an array is undefined behaviour in the source and is a missing result
(`none`, `Outcome.undefined`) here. Floating point values are never computed with, only
stored and copied, so their types are parameters. What ITK, VTK and the C
library provide (the region iterator, `InsertPoint`, the `itkSet...Macro`
family, `atoi`) is written out from their documented behaviour.
-/

set_option autoImplicit false

namespace ConvertVectorFieldToVTK

/-- An `itk::ImageRegion`: for every axis its start index and its size. The
number of axes is the constant `ImageDimension` of `global.h`. -/
abbrev ImageRegion := List (Int × Nat)

/-- The sizes of a region, axis by axis (`GetSize()`). -/
def ImageRegion.GetSize (r : ImageRegion) : List Nat := r.map Prod.snd

/-- The number of axes, `ImageDimension`. -/
def ImageRegion.ImageDimension (r : ImageRegion) : Nat := r.length

/-- Whether an index lies in the region (`ImageRegion::IsInside`). -/
def ImageRegion.IsInside : ImageRegion → List Int → Bool
  | [], [] => true
  | (start, n) :: rest, i :: idx =>
      decide (start ≤ i) && decide (i < start + (n : Int)) && ImageRegion.IsInside rest idx
  | _, _ => false

/-- The indices an `itk::ImageRegionIteratorWithIndex` visits from `GoToBegin()`
until `IsAtEnd()`: raster order, the first axis running fastest. -/
def rasterIndices : ImageRegion → List (List Int)
  | [] => [[]]
  | (start, n) :: rest =>
      (rasterIndices rest).flatMap
        (fun tail => (List.range n).map (fun (k : Nat) => (start + (k : Int)) :: tail))

/-- An `itk::Image`: its largest possible region, its index-to-point map (built
by ITK from origin and spacing) and its pixel buffer. `P` is the point type and
`T` the pixel type. -/
structure Image (P T : Type) where
  LargestPossibleRegion : ImageRegion
  TransformIndexToPhysicalPoint : List Int → P
  buffer : List Int → T

/-- The call `GetPixel( idx )`: the pixel at `idx`; reading outside the region is
out of bounds. -/
def Image.GetPixel {P T : Type} (img : Image P T) (idx : List Int) : Option T :=
  if img.LargestPossibleRegion.IsInside idx then some (img.buffer idx) else none

/-- Lines 45-52: the mask used when no mask file is given. It takes origin,
spacing and regions from the field and is filled with 1. -/
def defaultMask {P T : Type} (field : Image P T) : Image P Int :=
  { LargestPossibleRegion := field.LargestPossibleRegion
    TransformIndexToPhysicalPoint := field.TransformIndexToPhysicalPoint
    buffer := fun _ => 1 }

/-- The slice selection the program works with when `argc > 4`:
`(atoi( argv[5] ), atoi( argv[4] ))`, the axis and the index on it. -/
abbrev SliceSelection := Option (Int × Int)

/-- The value an `int` of 32 bits holds after an operation whose exact result is
`z`: `z` reduced modulo `2^32` into the range from `-2^31` to `2^31 - 1`. -/
def wrapInt (z : Int) : Int :=
  (z + 2147483648) % 4294967296 - 2147483648

/-- Lines 57-70: the loop computing `int totalsize`, from axis `i` on. `size[i]`
is the region's size converted to `int`, replaced by 1 on the axis
`atoi( argv[5] )` when `argc > 4`; `totalsize *= size[i]` is a product of `int`s. -/
def sizeLoop (slice : SliceSelection) : Nat → List Nat → Int → Int
  | _, [], totalsize => totalsize
  | i, s :: rest, totalsize =>
      let size_i : Int :=
        match slice with
        | some (whichAxis, _) => if whichAxis = wrapInt (i : Int) then 1 else wrapInt (s : Int)
        | none => wrapInt (s : Int)
      sizeLoop slice (i + 1) rest (wrapInt (totalsize * size_i))

/-- Line 72: `int totalPoints`. -/
def totalPoints (region : ImageRegion) (slice : SliceSelection) : Int :=
  sizeLoop slice 0 region.GetSize 1

/-- A buffer `float x[3]`. -/
abbrev Float3 (F : Type) := F × F × F

/-- The assignment `x[i] = a`; there is no component 3 or higher. -/
def Float3.write {F : Type} (x : Float3 F) (i : Nat) (a : F) : Option (Float3 F) :=
  match i with
  | 0 => some (a, x.2.1, x.2.2)
  | 1 => some (x.1, a, x.2.2)
  | 2 => some (x.1, x.2.1, a)
  | _ => none

/-- Lines 98-102: `for i < ImageDimension: x[i] = point[i]; v[i] = V[i];`, from
component `i` on with `remaining` rounds to go. `toFloat` is the conversion from
`double` to `float`. -/
def copyLoop {D F : Type} (toFloat : D → F) (point V : Nat → D) :
    Nat → Nat → Float3 F × Float3 F → Option (Float3 F × Float3 F)
  | 0, _, xv => some xv
  | remaining + 1, i, (x, v) =>
      match Float3.write x i (toFloat (point i)), Float3.write v i (toFloat (V i)) with
      | some x1, some v1 => copyLoop toFloat point V remaining (i + 1) (x1, v1)
      | _, _ => none

/-- A VTK array of tuples (`vtkPoints`, `vtkFloatArray` with three components):
an entry is `none` while it is allocated but was never written. -/
abbrev TupleArray (F : Type) := List (Option (Float3 F))

/-- The calls `InsertPoint( id, x )` and `InsertTuple( id, v )`: write entry `id`,
growing the array when `id` is past its end. -/
def InsertTuple {F : Type} (a : TupleArray F) (id : Nat) (t : Float3 F) : TupleArray F :=
  if id < a.length then a.set id (some t)
  else a ++ List.replicate (id - a.length) none ++ [some t]

/-- The call `SetNumberOfTuples( n )` on a fresh array: `n` tuples, none written;
no tuple when `n` is negative. -/
def SetNumberOfTuples {F : Type} (n : Int) : TupleArray F := List.replicate n.toNat none

/-- The component `idx[axis]` of an `itk::Index`; there is none for a negative
axis or one that is `ImageDimension` or more. -/
def indexAt (idx : List Int) (axis : Int) : Option Int :=
  if 0 ≤ axis then idx[axis.toNat]? else none

/-- The variables the main loop changes: `offset`, the buffers `x` and `v`, and
the two output arrays. -/
structure LoopState (F : Type) where
  offset : Int
  x : Float3 F
  v : Float3 F
  points : TupleArray F
  vectors : TupleArray F

/-- Lines 88-105: one round of the main loop, at the iterator's index `idx`.
`InsertPoint` and `InsertTuple` at a negative `offset` write before the array;
`offset++` is an increment of an `int`. -/
def loopBody {D F : Type} (toFloat : D → F) (field : Image (Nat → D) (Nat → D))
    (mask : Image (Nat → D) Int) (slice : SliceSelection)
    (st : LoopState F) (idx : List Int) : Option (LoopState F) :=
  let insert : Option (LoopState F) :=
    let point := field.TransformIndexToPhysicalPoint idx
    match field.GetPixel idx with
    | none => none
    | some V =>
        match copyLoop toFloat point V field.LargestPossibleRegion.ImageDimension 0
            (st.x, st.v) with
        | none => none
        | some (x, v) =>
            if st.offset < 0 then none
            else
              some { offset := wrapInt (st.offset + 1), x := x, v := v,
                     points := InsertTuple st.points st.offset.toNat x,
                     vectors := InsertTuple st.vectors st.offset.toNat v }
  match slice with
  | some (whichAxis, sliceIndex) =>
      match indexAt idx whichAxis with
      | none => none
      | some c => if c ≠ sliceIndex ∨ mask.buffer idx = 0 then some st else insert
  | none => if mask.buffer idx = 0 then some st else insert

/-- Lines 86-106: the main loop over a list of iterator positions. -/
def mainLoop {D F : Type} (toFloat : D → F) (field : Image (Nat → D) (Nat → D))
    (mask : Image (Nat → D) Int) (slice : SliceSelection) :
    List (List Int) → LoopState F → Option (LoopState F)
  | [], st => some st
  | idx :: rest, st =>
      match loopBody toFloat field mask slice st idx with
      | none => none
      | some st1 => mainLoop toFloat field mask slice rest st1

/-- The `vtkUnstructuredGrid` handed to the writer: its points and the vectors of
its point data. -/
structure vtkUnstructuredGrid (F : Type) where
  points : TupleArray F
  vectors : TupleArray F
deriving DecidableEq

/-- Lines 54-109: from the field, the mask and the slice selection to the grid.
`x0` and `v0` are the contents the uninitialised buffers `x` and `v` start with. -/
def exportField {D F : Type} (toFloat : D → F) (field : Image (Nat → D) (Nat → D))
    (mask : Image (Nat → D) Int) (slice : SliceSelection) (x0 v0 : Float3 F) :
    Option (vtkUnstructuredGrid F) :=
  let n := totalPoints field.LargestPossibleRegion slice
  match mainLoop toFloat field mask slice (rasterIndices mask.LargestPossibleRegion)
      { offset := 0, x := x0, v := v0, points := [], vectors := SetNumberOfTuples n } with
  | none => none
  | some st => some { points := st.points, vectors := st.vectors }

/-- The claim's filter: an index passes when the mask is not 0 there and, with a
slice selection, its component on the slice axis is the slice index. -/
def passes {P : Type} (mask : Image P Int) (slice : SliceSelection) (idx : List Int) : Bool :=
  decide (mask.buffer idx ≠ 0) &&
    match slice with
    | none => true
    | some (whichAxis, sliceIndex) => decide (indexAt idx whichAxis = some sliceIndex)

/-- The three floats VTK receives for a point or vector `p` of an image with
`dim` axes: the components of `p` below `dim`, converted to `float`, and above
them what the buffer `b` held before. With `dim = 3` these are the components
of `p` alone. -/
def components {D F : Type} (dim : Nat) (toFloat : D → F) (p : Nat → D) (b : Float3 F) :
    Float3 F :=
  (if 0 < dim then toFloat (p 0) else b.1,
   if 1 < dim then toFloat (p 1) else b.2.1,
   if 2 < dim then toFloat (p 2) else b.2.2)

/-- The raster order of two indices of the same grid: `idx` comes before `idx1`
when, on the last axis on which they differ, the component of `idx` is the
smaller one. The first axis runs fastest. -/
def rasterBefore : List Int → List Int → Prop
  | i :: tail, j :: tail1 => rasterBefore tail tail1 ∨ (tail = tail1 ∧ i < j)
  | _, _ => False

/-- The digits read by `atoi`: the decimal value of the leading digits. -/
def atoiDigits : List Char → Int → Int
  | [], acc => acc
  | c :: cs, acc =>
      if c.isDigit then atoiDigits cs (acc * 10 + ((c.toNat - 48 : Nat) : Int)) else acc

/-- The C library's `isspace`: space, tab, line feed, vertical tab, form feed and
carriage return. -/
def isspace (c : Char) : Bool :=
  c.toNat = 32 || (9 ≤ c.toNat && c.toNat ≤ 13)

/-- The number a string starts with: leading white space, an optional sign, then
the leading digits; 0 when there are none. -/
def leadingNumber (s : String) : Int :=
  match s.toList.dropWhile isspace with
  | '-' :: cs => - atoiDigits cs 0
  | '+' :: cs => atoiDigits cs 0
  | cs => atoiDigits cs 0

/-- The C library's `atoi`: the number the string starts with; the result is not
defined when that number is not a value of `int`. -/
def atoi (s : String) : Option Int :=
  if -2147483648 ≤ leadingNumber s ∧ leadingNumber s < 2147483648 then
    some (leadingNumber s)
  else none

/-- What the program takes from outside its own text: the two file readers (file
name to image), the conversion from `double` to `float`, and the contents the
uninitialised buffers `x` and `v` start with. -/
structure World (D F : Type) where
  readField : String → Image (Nat → D) (Nat → D)
  readMask : String → Image (Nat → D) Int
  toFloat : D → F
  x0 : Float3 F
  v0 : Float3 F

/-- How a run of the program ends: the usage message and `exit( 1 )`, undefined
behaviour, or `return 0` after the grid was written to a file. -/
inductive ProgramResult (F : Type) where
  | usage : ProgramResult F
  | undefined : ProgramResult F
  | written (fileName : String) (grid : vtkUnstructuredGrid F) : ProgramResult F
deriving DecidableEq

/-- The slice selection as `main` reads it from the command line: none unless
`argc > 4`, and then `atoi( argv[5] )` and `atoi( argv[4] )`; `argv[5]` is a null
pointer when `argc` is 5, and `atoi` of it is undefined. -/
def readSlice (argv : List String) : Option SliceSelection :=
  if argv.length > 4 then
    match argv[5]?, argv[4]? with
    | some whichAxis, some slice =>
        match atoi whichAxis, atoi slice with
        | some axis, some index => some (some (axis, index))
        | _, _ => none
    | _, _ => none
  else some none

/-- The function `main`, `argv` being the argument vector (`argc` its length). -/
def main {D F : Type} (w : World D F) (argv : List String) : ProgramResult F :=
  if argv.length < 3 then ProgramResult.usage
  else
    match argv[1]?, argv[2]? with
    | some input, some output =>
        let field := w.readField input
        let mask : Option (Image (Nat → D) Int) :=
          if argv.length ≥ 4 then argv[3]?.map w.readMask else some (defaultMask field)
        match mask, readSlice argv with
        | some mask, some slice =>
            match exportField w.toFloat field mask slice w.x0 w.v0 with
            | some grid => ProgramResult.written output grid
            | none => ProgramResult.undefined
        | _, _ => ProgramResult.undefined
    | _, _ => ProgramResult.undefined

/-- The indices `k` of the arguments `argv[k]` that `main` reads on a command line
of `argc ≥ 3` arguments, for an image of at least one axis: `argv[1]` (line 32),
`argv[3]` when `argc >= 4` (line 41), `argv[5]` when `argc > 4` (line 65, and
line 90 together with `argv[4]`), and `argv[2]` (line 117). -/
def argumentsRead (argc : Nat) : List Nat :=
  [1] ++ (if argc ≥ 4 then [3] else []) ++ (if argc > 4 then [5, 4] else []) ++ [2]

/-- A field on a grid of 2 x 2 x 1 voxels, used to evaluate the program: the
point of an index is ten times the index, the vector at an index holds the
voxel's raster number plus 0, 1 and 2. -/
def exampleField : Image (Nat → Int) (Nat → Int) :=
  { LargestPossibleRegion := [(0, 2), (0, 2), (0, 1)]
    TransformIndexToPhysicalPoint := fun idx i => 10 * idx.getD i 0
    buffer := fun idx i => idx.getD 0 0 + 2 * idx.getD 1 0 + (i : Int) }

/-- A mask on the grid of `exampleField` that is 0 at the index (1, 0, 0) and 1
elsewhere. -/
def exampleMask : Image (Nat → Int) Int :=
  { LargestPossibleRegion := [(0, 2), (0, 2), (0, 1)]
    TransformIndexToPhysicalPoint := fun idx i => 10 * idx.getD i 0
    buffer := fun idx => if idx = [1, 0, 0] then 0 else 1 }

/-- A field on a grid of 65536 x 65536 x 1 voxels, `2^32` in all, that is zero
everywhere. -/
def wideField : Image (Nat → Int) (Nat → Int) :=
  { LargestPossibleRegion := [(0, 65536), (0, 65536), (0, 1)]
    TransformIndexToPhysicalPoint := fun _ _ => 0
    buffer := fun _ _ => 0 }

/-- A field with four axes, on a grid of a single voxel. -/
def fourAxisField : Image (Nat → Int) (Nat → Int) :=
  { LargestPossibleRegion := [(0, 1), (0, 1), (0, 1), (0, 1)]
    TransformIndexToPhysicalPoint := fun _ _ => 0
    buffer := fun _ _ => 0 }

/-- A world in which every field file holds `exampleField` and every mask file
`exampleMask`; the buffers start with 7s and 9s. -/
def exampleWorld : World Int Int :=
  { readField := fun _ => exampleField
    readMask := fun _ => exampleMask
    toFloat := id
    x0 := (7, 7, 7)
    v0 := (9, 9, 9) }

end ConvertVectorFieldToVTK

namespace itk

/-- A pointer to an object (`T *`, `SmartPointer<T>`): null, or the identity of
the object it points to. -/
abbrev Pointer := Option Nat

/-- The exception `itkExceptionMacro` throws, with the text given to the macro. -/
structure ExceptionObject where
  description : String
deriving DecidableEq

/-- How a call of a member function ends: it returns, leaving the object in a
state; it throws, leaving the object in a state; or its behaviour is undefined. -/
inductive Outcome (σ : Type) where
  | returned (s : σ) : Outcome σ
  | threw (e : ExceptionObject) (s : σ) : Outcome σ
  | undefined : Outcome σ
deriving DecidableEq

/-- The state the object is left in, when the call left one. -/
def Outcome.state? {σ : Type} : Outcome σ → Option σ
  | Outcome.returned s => some s
  | Outcome.threw _ s => some s
  | Outcome.undefined => none

/-- The filter of `itkMultiResolutionPDEDeformableRegistration.h`: the private
members of lines 231-240 and, from the base classes, the modification time and
the first input (the initial deformation field). -/
structure MultiResolutionPDEDeformableRegistration where
  MTime : Nat
  Input : Pointer
  m_RegistrationFilter : Pointer
  m_FixedImagePyramid : Pointer
  m_MovingImagePyramid : Pointer
  m_FieldExpander : Pointer
  m_NumberOfLevels : Nat
  m_CurrentLevel : Nat
  m_NumberOfIterations : List Nat
  m_InverseField : Pointer
deriving DecidableEq

namespace MultiResolutionPDEDeformableRegistration

/-- The call `this->Modified()`: a new modification time. -/
def Modified (s : MultiResolutionPDEDeformableRegistration) :
    MultiResolutionPDEDeformableRegistration :=
  { s with MTime := s.MTime + 1 }

/-- The call `SetInput( ptr )` of the base class: the first input becomes `ptr`,
and the filter is modified when that is a change. -/
def SetInput (s : MultiResolutionPDEDeformableRegistration) (ptr : Pointer) :
    Outcome MultiResolutionPDEDeformableRegistration :=
  if s.Input ≠ ptr then Outcome.returned (Modified { s with Input := ptr })
  else Outcome.returned s

/-- Lines 153-157: `SetInitialDeformationField`. The body is the exception macro;
the call of `SetInput` after it is commented out. -/
def SetInitialDeformationField (s : MultiResolutionPDEDeformableRegistration)
    (_ptr : Pointer) : Outcome MultiResolutionPDEDeformableRegistration :=
  Outcome.threw { description := "This feature not implemented yet" } s

/-- Line 164, `itkSetObjectMacro( RegistrationFilter, RegistrationType )`: store
the pointer and call `Modified()` when it differs from the stored one. -/
def SetRegistrationFilter (s : MultiResolutionPDEDeformableRegistration)
    (arg : Pointer) : Outcome MultiResolutionPDEDeformableRegistration :=
  if s.m_RegistrationFilter ≠ arg then
    Outcome.returned (Modified { s with m_RegistrationFilter := arg })
  else Outcome.returned s

/-- Line 167, `itkGetObjectMacro( RegistrationFilter, RegistrationType )`. -/
def GetRegistrationFilter (s : MultiResolutionPDEDeformableRegistration) : Pointer :=
  s.m_RegistrationFilter

/-- Line 170, `itkSetObjectMacro( FixedImagePyramid, FixedImagePyramidType )`. -/
def SetFixedImagePyramid (s : MultiResolutionPDEDeformableRegistration)
    (arg : Pointer) : Outcome MultiResolutionPDEDeformableRegistration :=
  if s.m_FixedImagePyramid ≠ arg then
    Outcome.returned (Modified { s with m_FixedImagePyramid := arg })
  else Outcome.returned s

/-- Line 173, `itkGetObjectMacro( FixedImagePyramid, FixedImagePyramidType )`. -/
def GetFixedImagePyramid (s : MultiResolutionPDEDeformableRegistration) : Pointer :=
  s.m_FixedImagePyramid

/-- Line 176, `itkSetObjectMacro( MovingImagePyramid, MovingImagePyramidType )`. -/
def SetMovingImagePyramid (s : MultiResolutionPDEDeformableRegistration)
    (arg : Pointer) : Outcome MultiResolutionPDEDeformableRegistration :=
  if s.m_MovingImagePyramid ≠ arg then
    Outcome.returned (Modified { s with m_MovingImagePyramid := arg })
  else Outcome.returned s

/-- Line 179, `itkGetObjectMacro( MovingImagePyramid, MovingImagePyramidType )`. -/
def GetMovingImagePyramid (s : MultiResolutionPDEDeformableRegistration) : Pointer :=
  s.m_MovingImagePyramid

/-- Line 185, `itkGetMacro( NumberOfLevels, unsigned int )`. -/
def GetNumberOfLevels (s : MultiResolutionPDEDeformableRegistration) : Nat :=
  s.m_NumberOfLevels

/-- Line 188, `itkGetMacro( CurrentLevel, unsigned int )`. -/
def GetCurrentLevel (s : MultiResolutionPDEDeformableRegistration) : Nat :=
  s.m_CurrentLevel

/-- The first loop of `itkSetVectorMacro`:
`for (i=0; i<count; i++) if ( data[i] != m_NumberOfIterations[i] ) break;`
from `i` on with `remaining` rounds to go. The result is the value of `i` after
the loop; there is none when `data[i]` or `m_NumberOfIterations[i]` is read
past the end. -/
def compareLoop (data stored : List Nat) : Nat → Nat → Option Nat
  | 0, i => some i
  | remaining + 1, i =>
      match data[i]?, stored[i]? with
      | some d, some m => if d ≠ m then some i else compareLoop data stored remaining (i + 1)
      | _, _ => none

/-- The second loop of `itkSetVectorMacro`:
`for (i=0; i<count; i++) m_NumberOfIterations[i] = data[i];`. -/
def assignLoop (data : List Nat) : Nat → Nat → List Nat → Option (List Nat)
  | 0, _, stored => some stored
  | remaining + 1, i, stored =>
      match data[i]? with
      | some d =>
          if i < stored.length then assignLoop data remaining (i + 1) (stored.set i d)
          else none
      | none => none

/-- Line 191, `itkSetVectorMacro( NumberOfIterations, unsigned int, m_NumberOfLevels )`:
the member function takes the array `data` alone, without a length. When one of
the first `m_NumberOfLevels` entries differs from the stored one, the filter is
modified and the first `m_NumberOfLevels` entries are copied. -/
def SetNumberOfIterations (s : MultiResolutionPDEDeformableRegistration)
    (data : List Nat) : Outcome MultiResolutionPDEDeformableRegistration :=
  match compareLoop data s.m_NumberOfIterations s.m_NumberOfLevels 0 with
  | none => Outcome.undefined
  | some i =>
      if i < s.m_NumberOfLevels then
        match assignLoop data s.m_NumberOfLevels 0 s.m_NumberOfIterations with
        | none => Outcome.undefined
        | some stored => Outcome.returned { Modified s with m_NumberOfIterations := stored }
      else Outcome.returned s

/-- Lines 194-195, `GetNumberOfIterations`: the array that starts at
`m_NumberOfIterations[0]`; an empty vector has no such element. -/
def GetNumberOfIterations (s : MultiResolutionPDEDeformableRegistration) :
    Option (List Nat) :=
  if s.m_NumberOfIterations = [] then none else some s.m_NumberOfIterations

/-- The member functions lines 152-195 define in the public interface, with
their arguments. `GetDeformationField` is `GetOutput()` of the base class. -/
inductive PublicCall where
  | SetInitialDeformationField (ptr : Pointer)
  | GetDeformationField
  | SetRegistrationFilter (arg : Pointer)
  | GetRegistrationFilter
  | SetFixedImagePyramid (arg : Pointer)
  | GetFixedImagePyramid
  | SetMovingImagePyramid (arg : Pointer)
  | GetMovingImagePyramid
  | GetNumberOfLevels
  | GetCurrentLevel
  | SetNumberOfIterations (data : List Nat)
  | GetNumberOfIterations

/-- The effect of one public call on the filter; a getter returns its value and
leaves the filter as it is. -/
def perform (s : MultiResolutionPDEDeformableRegistration) :
    PublicCall → Outcome MultiResolutionPDEDeformableRegistration
  | PublicCall.SetInitialDeformationField ptr => s.SetInitialDeformationField ptr
  | PublicCall.SetRegistrationFilter arg => s.SetRegistrationFilter arg
  | PublicCall.SetFixedImagePyramid arg => s.SetFixedImagePyramid arg
  | PublicCall.SetMovingImagePyramid arg => s.SetMovingImagePyramid arg
  | PublicCall.SetNumberOfIterations data => s.SetNumberOfIterations data
  | PublicCall.GetNumberOfIterations =>
      if s.m_NumberOfIterations = [] then Outcome.undefined else Outcome.returned s
  | PublicCall.GetDeformationField => Outcome.returned s
  | PublicCall.GetRegistrationFilter => Outcome.returned s
  | PublicCall.GetFixedImagePyramid => Outcome.returned s
  | PublicCall.GetMovingImagePyramid => Outcome.returned s
  | PublicCall.GetNumberOfLevels => Outcome.returned s
  | PublicCall.GetCurrentLevel => Outcome.returned s

/-- A caller's sequence of public calls, one after the other; a caller that
catches the exception of a call goes on with the next one. -/
def performAll (s : MultiResolutionPDEDeformableRegistration) :
    List PublicCall → Outcome MultiResolutionPDEDeformableRegistration
  | [] => Outcome.returned s
  | c :: rest =>
      match s.perform c with
      | Outcome.returned s1 => performAll s1 rest
      | Outcome.threw _ s1 => performAll s1 rest
      | Outcome.undefined => Outcome.undefined

/-- A filter with two levels and ten iterations on each, no initial field, used
to evaluate the member functions. -/
def exampleFilter : MultiResolutionPDEDeformableRegistration :=
  { MTime := 0
    Input := none
    m_RegistrationFilter := some 1
    m_FixedImagePyramid := some 2
    m_MovingImagePyramid := some 3
    m_FieldExpander := some 4
    m_NumberOfLevels := 2
    m_CurrentLevel := 0
    m_NumberOfIterations := [10, 10]
    m_InverseField := none }

end MultiResolutionPDEDeformableRegistration

end itk

namespace itk.fem

/-- The load of `itkFEMImageMetricLoad.h`: the private members of lines 195-208.
`RealType` is `double`; the metric radius is one size per axis. -/
structure ImageMetricLoad (RealType : Type) where
  m_MovingImage : Pointer
  m_FixedImage : Pointer
  m_MetricRadius : List Nat
  m_NumberOfIntegrationPoints : Nat
  m_Gamma : RealType
  m_Energy : RealType
  m_MaximizeMetric : Bool
  m_Metric : Pointer
  m_ImageInterpolator : Pointer
  m_Solution : Pointer
  m_Transform : Pointer
  m_DeformationField : Pointer
deriving DecidableEq

namespace ImageMetricLoad

variable {RealType : Type}

/-- Lines 122-125. -/
def SetMetric (s : ImageMetricLoad RealType) (M : Pointer) : ImageMetricLoad RealType :=
  { s with m_Metric := M }

/-- Lines 126-129. -/
def GetMetric (s : ImageMetricLoad RealType) : Pointer := s.m_Metric

/-- Lines 131-134. -/
def SetMovingImage (s : ImageMetricLoad RealType) (I : Pointer) : ImageMetricLoad RealType :=
  { s with m_MovingImage := I }

/-- Lines 135-138. -/
def SetFixedImage (s : ImageMetricLoad RealType) (I : Pointer) : ImageMetricLoad RealType :=
  { s with m_FixedImage := I }

/-- Lines 139-142. -/
def SetImageInterpolator (s : ImageMetricLoad RealType) (I : Pointer) :
    ImageMetricLoad RealType :=
  { s with m_ImageInterpolator := I }

/-- Lines 143-146. -/
def SetMetricRadius (s : ImageMetricLoad RealType) (R : List Nat) : ImageMetricLoad RealType :=
  { s with m_MetricRadius := R }

/-- Lines 147-150. -/
def SetNumberOfIntegrationPoints (s : ImageMetricLoad RealType) (N : Nat) :
    ImageMetricLoad RealType :=
  { s with m_NumberOfIntegrationPoints := N }

/-- Lines 151-154. -/
def GetNumberOfIntegrationPoints (s : ImageMetricLoad RealType) : Nat :=
  s.m_NumberOfIntegrationPoints

/-- Lines 155-158. -/
def SetGamma (s : ImageMetricLoad RealType) (r : RealType) : ImageMetricLoad RealType :=
  { s with m_Gamma := r }

/-- Lines 159-162. -/
def SetSolution (s : ImageMetricLoad RealType) (S : Pointer) : ImageMetricLoad RealType :=
  { s with m_Solution := S }

/-- Lines 163-166. -/
def GetSolution (s : ImageMetricLoad RealType) : Pointer := s.m_Solution

/-- Lines 167-170. -/
def SetCurrentEnergy (s : ImageMetricLoad RealType) (E : RealType) : ImageMetricLoad RealType :=
  { s with m_Energy := E }

/-- Lines 171-174. -/
def GetCurrentEnergy (s : ImageMetricLoad RealType) : RealType := s.m_Energy

/-- Lines 175-178. -/
def SetMaximizeMetric (s : ImageMetricLoad RealType) (b : Bool) : ImageMetricLoad RealType :=
  { s with m_MaximizeMetric := b }

/-- Lines 179-182. -/
def GetMaximizeMetric (s : ImageMetricLoad RealType) : Bool := s.m_MaximizeMetric

/-- Lines 183-186. -/
def SetDeformationField (s : ImageMetricLoad RealType) (F : Pointer) :
    ImageMetricLoad RealType :=
  { s with m_DeformationField := F }

/-- Lines 187-190. -/
def GetDeformationField (s : ImageMetricLoad RealType) : Pointer := s.m_DeformationField

/-- The public member functions lines 121-190 define, with their arguments. -/
inductive PublicCall (RealType : Type) where
  | SetMetric (M : Pointer)
  | GetMetric
  | SetMovingImage (I : Pointer)
  | SetFixedImage (I : Pointer)
  | SetImageInterpolator (I : Pointer)
  | SetMetricRadius (R : List Nat)
  | SetNumberOfIntegrationPoints (N : Nat)
  | GetNumberOfIntegrationPoints
  | SetGamma (r : RealType)
  | SetSolution (S : Pointer)
  | GetSolution
  | SetCurrentEnergy (E : RealType)
  | GetCurrentEnergy
  | SetMaximizeMetric (b : Bool)
  | GetMaximizeMetric
  | SetDeformationField (F : Pointer)
  | GetDeformationField

/-- The effect of one public call on the load; a getter returns its value and
leaves the load as it is. -/
def perform (s : ImageMetricLoad RealType) : PublicCall RealType → ImageMetricLoad RealType
  | PublicCall.SetMetric M => s.SetMetric M
  | PublicCall.SetMovingImage I => s.SetMovingImage I
  | PublicCall.SetFixedImage I => s.SetFixedImage I
  | PublicCall.SetImageInterpolator I => s.SetImageInterpolator I
  | PublicCall.SetMetricRadius R => s.SetMetricRadius R
  | PublicCall.SetNumberOfIntegrationPoints N => s.SetNumberOfIntegrationPoints N
  | PublicCall.SetGamma r => s.SetGamma r
  | PublicCall.SetSolution S => s.SetSolution S
  | PublicCall.SetCurrentEnergy E => s.SetCurrentEnergy E
  | PublicCall.SetMaximizeMetric b => s.SetMaximizeMetric b
  | PublicCall.SetDeformationField F => s.SetDeformationField F
  | PublicCall.GetMetric => s
  | PublicCall.GetNumberOfIntegrationPoints => s
  | PublicCall.GetSolution => s
  | PublicCall.GetCurrentEnergy => s
  | PublicCall.GetMaximizeMetric => s
  | PublicCall.GetDeformationField => s

/-- A caller's sequence of public calls, one after the other. -/
def performAll (s : ImageMetricLoad RealType) : List (PublicCall RealType) → ImageMetricLoad RealType
  | [] => s
  | c :: rest => performAll (s.perform c) rest

/-- The argument of the last `SetCurrentEnergy` of a call sequence, or `E0` when
it has none. -/
def lastEnergy (E0 : RealType) : List (PublicCall RealType) → RealType
  | [] => E0
  | PublicCall.SetCurrentEnergy E :: rest => lastEnergy E rest
  | _ :: rest => lastEnergy E0 rest

/-- The private members of the load, lines 195-208. -/
inductive Member where
  | m_MovingImage
  | m_FixedImage
  | m_MetricRadius
  | m_NumberOfIntegrationPoints
  | m_Gamma
  | m_Energy
  | m_MaximizeMetric
  | m_Metric
  | m_ImageInterpolator
  | m_Solution
  | m_Transform
  | m_DeformationField
deriving DecidableEq

/-- The member a public call assigns to: the left-hand side of the one
assignment in the body of a setter, none for a getter. -/
def PublicCall.assigns : PublicCall RealType → Option Member
  | PublicCall.SetMetric _ => some Member.m_Metric
  | PublicCall.SetMovingImage _ => some Member.m_MovingImage
  | PublicCall.SetFixedImage _ => some Member.m_FixedImage
  | PublicCall.SetImageInterpolator _ => some Member.m_ImageInterpolator
  | PublicCall.SetMetricRadius _ => some Member.m_MetricRadius
  | PublicCall.SetNumberOfIntegrationPoints _ => some Member.m_NumberOfIntegrationPoints
  | PublicCall.SetGamma _ => some Member.m_Gamma
  | PublicCall.SetSolution _ => some Member.m_Solution
  | PublicCall.SetCurrentEnergy _ => some Member.m_Energy
  | PublicCall.SetMaximizeMetric _ => some Member.m_MaximizeMetric
  | PublicCall.SetDeformationField _ => some Member.m_DeformationField
  | PublicCall.GetMetric => none
  | PublicCall.GetNumberOfIntegrationPoints => none
  | PublicCall.GetSolution => none
  | PublicCall.GetCurrentEnergy => none
  | PublicCall.GetMaximizeMetric => none
  | PublicCall.GetDeformationField => none

/-- Two loads hold the same value in the member `m`. -/
def sameAt (s t : ImageMetricLoad RealType) : Member → Prop
  | Member.m_MovingImage => s.m_MovingImage = t.m_MovingImage
  | Member.m_FixedImage => s.m_FixedImage = t.m_FixedImage
  | Member.m_MetricRadius => s.m_MetricRadius = t.m_MetricRadius
  | Member.m_NumberOfIntegrationPoints =>
      s.m_NumberOfIntegrationPoints = t.m_NumberOfIntegrationPoints
  | Member.m_Gamma => s.m_Gamma = t.m_Gamma
  | Member.m_Energy => s.m_Energy = t.m_Energy
  | Member.m_MaximizeMetric => s.m_MaximizeMetric = t.m_MaximizeMetric
  | Member.m_Metric => s.m_Metric = t.m_Metric
  | Member.m_ImageInterpolator => s.m_ImageInterpolator = t.m_ImageInterpolator
  | Member.m_Solution => s.m_Solution = t.m_Solution
  | Member.m_Transform => s.m_Transform = t.m_Transform
  | Member.m_DeformationField => s.m_DeformationField = t.m_DeformationField

/-- A load whose energy is 0, with integers for `RealType`, used to evaluate the
member functions. -/
def exampleLoad : ImageMetricLoad Int :=
  { m_MovingImage := some 1
    m_FixedImage := some 2
    m_MetricRadius := [1, 1, 1]
    m_NumberOfIntegrationPoints := 1
    m_Gamma := 1
    m_Energy := 0
    m_MaximizeMetric := false
    m_Metric := some 3
    m_ImageInterpolator := some 4
    m_Solution := none
    m_Transform := none
    m_DeformationField := none }

end ImageMetricLoad

end itk.fem

/-! Field export: the main loop. -/

namespace ConvertVectorFieldToVTK

theorem copyLoop_eq {D F : Type} (toFloat : D → F) (point V : Nat → D) (dim : Nat)
    (hdim : dim ≤ 3) (x v : Float3 F) :
    copyLoop toFloat point V dim 0 (x, v) =
      some (components dim toFloat point x, components dim toFloat V v) := by
  interval_cases dim <;> simp [copyLoop, Float3.write, components]

theorem components_components {D F : Type} (dim : Nat) (toFloat : D → F) (p q : Nat → D)
    (b : Float3 F) :
    components dim toFloat q (components dim toFloat p b) = components dim toFloat q b := by
  simp only [components]
  split_ifs <;> rfl

theorem components_three {D F : Type} (toFloat : D → F) (p : Nat → D) (b : Float3 F) :
    components 3 toFloat p b = (toFloat (p 0), toFloat (p 1), toFloat (p 2)) := rfl

theorem InsertTuple_length_self {F : Type} (a : TupleArray F) (t : Float3 F) :
    InsertTuple a a.length t = a ++ [some t] := by
  simp [InsertTuple]

theorem take_set_self {α : Type} (a : List α) (i : Nat) (x : α) :
    (a.set i x).take i = a.take i := by
  induction a generalizing i with
  | nil => simp
  | cons b rest ih =>
      cases i with
      | zero => simp
      | succ j => simp [ih]

theorem InsertTuple_length {F : Type} (a : TupleArray F) (off : Nat) (t : Float3 F)
    (h : off ≤ a.length) : (InsertTuple a off t).length = max a.length (off + 1) := by
  unfold InsertTuple
  split_ifs with hlt
  · simp only [List.length_set]; omega
  · simp only [List.length_append, List.length_replicate, List.length_singleton]; omega

theorem InsertTuple_take {F : Type} (a : TupleArray F) (off : Nat) (t : Float3 F)
    (h : off ≤ a.length) : (InsertTuple a off t).take (off + 1) = a.take off ++ [some t] := by
  unfold InsertTuple
  split_ifs with hlt
  · rw [List.take_succ, take_set_self, List.getElem?_set_self hlt]; rfl
  · have hoff : off = a.length := by omega
    subst hoff
    simp

theorem loopBody_eq {D F : Type} (toFloat : D → F) (field : Image (Nat → D) (Nat → D))
    (mask : Image (Nat → D) Int) (slice : SliceSelection) (st : LoopState F) (idx : List Int)
    (hdim : field.LargestPossibleRegion.ImageDimension ≤ 3)
    (hin : field.LargestPossibleRegion.IsInside idx = true)
    (hax : ∀ a s, slice = some (a, s) → ∃ c, indexAt idx a = some c) :
    loopBody toFloat field mask slice st idx =
      if passes mask slice idx = true then
        if st.offset < 0 then none
        else
          some { offset := wrapInt (st.offset + 1)
                 x := components field.LargestPossibleRegion.ImageDimension toFloat
                   (field.TransformIndexToPhysicalPoint idx) st.x
                 v := components field.LargestPossibleRegion.ImageDimension toFloat
                   (field.buffer idx) st.v
                 points := InsertTuple st.points st.offset.toNat
                   (components field.LargestPossibleRegion.ImageDimension toFloat
                     (field.TransformIndexToPhysicalPoint idx) st.x)
                 vectors := InsertTuple st.vectors st.offset.toNat
                   (components field.LargestPossibleRegion.ImageDimension toFloat
                     (field.buffer idx) st.v) }
      else some st := by
  unfold loopBody passes
  simp only [Image.GetPixel, hin, if_true, copyLoop_eq toFloat _ _ _ hdim]
  cases slice with
  | none => by_cases hm : mask.buffer idx = 0 <;> simp [hm]
  | some sel =>
      obtain ⟨a, s⟩ := sel
      obtain ⟨c, hc⟩ := hax a s rfl
      simp only [hc]
      by_cases hm : mask.buffer idx = 0 <;> by_cases hcs : c = s <;> simp [hm, hcs]

theorem isInside_rasterIndices (r : ImageRegion) :
    ∀ idx ∈ rasterIndices r, r.IsInside idx = true ∧ idx.length = r.length := by
  induction r with
  | nil => intro idx h; simp [rasterIndices] at h; subst h; simp [ImageRegion.IsInside]
  | cons a rest ih =>
      obtain ⟨start, n⟩ := a
      intro idx h
      simp only [rasterIndices, List.mem_flatMap, List.mem_map, List.mem_range] at h
      obtain ⟨tail, htail, k, hk, rfl⟩ := h
      obtain ⟨h1, h2⟩ := ih tail htail
      refine ⟨?_, by simp [h2]⟩
      simp only [ImageRegion.IsInside, h1, Bool.and_true, Bool.and_eq_true, decide_eq_true_eq]
      constructor <;> omega

theorem indexAt_isSome (idx : List Int) (a : Int) (h0 : 0 ≤ a) (h1 : a < (idx.length : Int)) :
    ∃ c, indexAt idx a = some c := by
  have hlt : a.toNat < idx.length := by omega
  exact ⟨idx[a.toNat], by simp [indexAt, h0, List.getElem?_eq_getElem hlt]⟩

theorem wrapInt_of_range (z : Int) (h1 : -2147483648 ≤ z) (h2 : z < 2147483648) :
    wrapInt z = z := by
  unfold wrapInt
  omega

theorem wrapInt_range (z : Int) : -2147483648 ≤ wrapInt z ∧ wrapInt z < 2147483648 := by
  unfold wrapInt
  omega

theorem mainLoop_spec {D F : Type} (toFloat : D → F) (field : Image (Nat → D) (Nat → D))
    (mask : Image (Nat → D) Int) (slice : SliceSelection) (x0 v0 : Float3 F)
    (hdim : field.LargestPossibleRegion.ImageDimension ≤ 3) (l : List (List Int))
    (hl : ∀ idx ∈ l, field.LargestPossibleRegion.IsInside idx = true ∧
      ∀ a s, slice = some (a, s) → ∃ c, indexAt idx a = some c) :
    ∀ st : LoopState F, st.offset = (st.points.length : Int) →
      st.points.length ≤ st.vectors.length →
      st.points.length + l.length < 2147483648 →
      (∀ p, components field.LargestPossibleRegion.ImageDimension toFloat p st.x =
        components field.LargestPossibleRegion.ImageDimension toFloat p x0) →
      (∀ p, components field.LargestPossibleRegion.ImageDimension toFloat p st.v =
        components field.LargestPossibleRegion.ImageDimension toFloat p v0) →
      ∃ st1, mainLoop toFloat field mask slice l st = some st1 ∧
        st1.points = st.points ++ (l.filter (passes mask slice)).map (fun idx =>
          some (components field.LargestPossibleRegion.ImageDimension toFloat
            (field.TransformIndexToPhysicalPoint idx) x0)) ∧
        st1.offset = (st1.points.length : Int) ∧
        st1.vectors.length = max st.vectors.length st1.points.length ∧
        st1.vectors.take st1.points.length = st.vectors.take st.points.length ++
          (l.filter (passes mask slice)).map (fun idx =>
            some (components field.LargestPossibleRegion.ImageDimension toFloat
              (field.buffer idx) v0)) := by
  induction l with
  | nil =>
      intro st hoff hle _ _ _
      exact ⟨st, rfl, by simp, hoff, by omega, by simp⟩
  | cons idx rest ih =>
      intro st hoff hle hbound hx hv
      have hidx := hl idx (List.mem_cons_self _ _)
      have hrest : ∀ i ∈ rest, field.LargestPossibleRegion.IsInside i = true ∧
          ∀ a s, slice = some (a, s) → ∃ c, indexAt i a = some c :=
        fun i hi => hl i (List.mem_cons_of_mem _ hi)
      simp only [List.length_cons] at hbound
      simp only [mainLoop, loopBody_eq toFloat field mask slice st idx hdim hidx.1 hidx.2]
      by_cases hp : passes mask slice idx = true
      · have hnonneg : ¬ st.offset < 0 := by omega
        have htoNat : st.offset.toNat = st.points.length := by omega
        have hnext : wrapInt (st.offset + 1) = ((st.points.length + 1 : Nat) : Int) := by
          rw [wrapInt_of_range _ (by omega) (by omega), hoff]
          push_cast
          rfl
        simp only [hp, if_true, hnonneg, if_false, htoNat, hnext, List.filter_cons,
          List.map_cons]
        have hpts : InsertTuple st.points st.points.length
            (components field.LargestPossibleRegion.ImageDimension toFloat
              (field.TransformIndexToPhysicalPoint idx) st.x) =
            st.points ++ [some (components field.LargestPossibleRegion.ImageDimension toFloat
              (field.TransformIndexToPhysicalPoint idx) x0)] := by
          rw [InsertTuple_length_self, hx]
        obtain ⟨st1, hrun, hpoints, hoff1, hlen, htake⟩ := ih hrest
          { offset := ((st.points.length + 1 : Nat) : Int)
            x := components field.LargestPossibleRegion.ImageDimension toFloat
              (field.TransformIndexToPhysicalPoint idx) st.x
            v := components field.LargestPossibleRegion.ImageDimension toFloat
              (field.buffer idx) st.v
            points := InsertTuple st.points st.points.length
              (components field.LargestPossibleRegion.ImageDimension toFloat
                (field.TransformIndexToPhysicalPoint idx) st.x)
            vectors := InsertTuple st.vectors st.points.length
              (components field.LargestPossibleRegion.ImageDimension toFloat
                (field.buffer idx) st.v) }
          (by simp only [hpts, List.length_append, List.length_singleton])
          (by
            simp only [hpts, InsertTuple_length _ _ _ hle, List.length_append,
              List.length_singleton]
            omega)
          (by
            simp only [hpts, List.length_append, List.length_singleton]
            omega)
          (fun p => by simp only [components_components]; exact hx p)
          (fun p => by simp only [components_components]; exact hv p)
        simp only [hpts, InsertTuple_length _ _ _ hle, List.length_append,
          List.length_singleton, InsertTuple_take _ _ _ hle, hv] at hpoints hlen htake
        refine ⟨st1, hrun, ?_, hoff1, ?_, ?_⟩
        · simp [hpoints]
        · have hge : st.points.length + 1 ≤ st1.points.length := by
            rw [hpoints]; simp
          omega
        · simp [htake]
      · simp only [hp, List.filter_cons, Bool.false_eq_true, if_false]
        exact ih hrest st hoff hle (by omega) hx hv

theorem length_rasterIndices (r : ImageRegion) :
    (rasterIndices r).length = r.GetSize.prod := by
  induction r with
  | nil => simp [rasterIndices, ImageRegion.GetSize]
  | cons a rest ih =>
      obtain ⟨start, n⟩ := a
      have hsum : ∀ l : List (List Int),
          (l.flatMap (fun tail =>
            (List.range n).map (fun (k : Nat) => (start + (k : Int)) :: tail))).length =
            n * l.length := by
        intro l
        induction l with
        | nil => simp
        | cons t ts iht => simp only [List.flatMap_cons, List.length_append, iht,
            List.length_map, List.length_range, List.length_cons]; ring
      simp only [rasterIndices, hsum, ih, ImageRegion.GetSize, List.map_cons, List.prod_cons]

theorem wrapInt_wrapInt (z : Int) : wrapInt (wrapInt z) = wrapInt z :=
  wrapInt_of_range _ (wrapInt_range z).1 (wrapInt_range z).2

theorem wrapInt_add_mul (x c : Int) : wrapInt (x + 4294967296 * c) = wrapInt x := by
  unfold wrapInt
  have h : x + 4294967296 * c + 2147483648 = (x + 2147483648) + 4294967296 * c := by ring
  rw [h, Int.add_mul_emod_self_left]

theorem wrapInt_mul_left (a b : Int) : wrapInt (wrapInt a * b) = wrapInt (a * b) := by
  have h : wrapInt a * b = a * b + 4294967296 * (-((a + 2147483648) / 4294967296) * b) := by
    unfold wrapInt
    rw [Int.emod_def]
    ring
  rw [h, wrapInt_add_mul]

theorem sizeLoop_range (slice : SliceSelection) (sizes : List Nat) (i : Nat) (totalsize : Int)
    (h : wrapInt totalsize = totalsize) :
    wrapInt (sizeLoop slice i sizes totalsize) = sizeLoop slice i sizes totalsize := by
  induction sizes generalizing i totalsize with
  | nil => simpa [sizeLoop] using h
  | cons s rest ih =>
      simp only [sizeLoop]
      exact ih _ _ (wrapInt_wrapInt _)

theorem sizeLoop_none (sizes : List Nat) (i : Nat) (totalsize : Int) :
    wrapInt (sizeLoop none i sizes totalsize) = wrapInt (totalsize * (sizes.prod : Int)) := by
  induction sizes generalizing i totalsize with
  | nil => simp [sizeLoop]
  | cons s rest ih =>
      simp only [sizeLoop, ih, List.prod_cons, wrapInt_mul_left]
      have h1 : totalsize * wrapInt (s : Int) * (rest.prod : Int) =
          wrapInt (s : Int) * (totalsize * (rest.prod : Int)) := by ring
      rw [h1, wrapInt_mul_left]
      push_cast
      exact congrArg wrapInt (by ring)

theorem sizeLoop_some (sizes : List Nat) (k : Nat) (sliceIndex : Int) (i : Nat)
    (totalsize : Int) (hi : i + sizes.length ≤ 2147483648) :
    wrapInt (sizeLoop (some ((k : Int), sliceIndex)) i sizes totalsize) =
      wrapInt (totalsize *
        ((if i ≤ k then (sizes.set (k - i) 1).prod else sizes.prod : Nat) : Int)) := by
  induction sizes generalizing i totalsize with
  | nil => simp [sizeLoop]
  | cons s rest ih =>
      simp only [List.length_cons] at hi
      have hwi : wrapInt (i : Int) = (i : Int) := wrapInt_of_range _ (by omega) (by omega)
      have hnext : i + 1 + rest.length ≤ 2147483648 := by omega
      simp only [sizeLoop, hwi, Nat.cast_inj]
      rw [ih (i + 1) _ hnext, wrapInt_mul_left]
      rcases Nat.lt_trichotomy i k with hlt | heq | hgt
      · have h1 : ¬ k = i := by omega
        have h2 : i + 1 ≤ k := hlt
        have h3 : k - i = (k - (i + 1)) + 1 := by omega
        simp only [h1, if_false, h2, if_true, hlt.le, h3, List.set_cons_succ, List.prod_cons]
        have h4 : totalsize * wrapInt (s : Int) * ((rest.set (k - (i + 1)) 1).prod : Int) =
            wrapInt (s : Int) * (totalsize * ((rest.set (k - (i + 1)) 1).prod : Int)) := by ring
        rw [h4, wrapInt_mul_left]
        push_cast
        exact congrArg wrapInt (by ring)
      · subst heq
        have h2 : ¬ i + 1 ≤ i := by omega
        simp only [if_true, h2, if_false, le_refl, Nat.sub_self, List.set_cons_zero,
          List.prod_cons, mul_one, one_mul]
      · have h1 : ¬ k = i := by omega
        have h2 : ¬ i + 1 ≤ k := by omega
        have h3 : ¬ i ≤ k := by omega
        simp only [h1, if_false, h2, h3, List.prod_cons]
        have h4 : totalsize * wrapInt (s : Int) * (rest.prod : Int) =
            wrapInt (s : Int) * (totalsize * (rest.prod : Int)) := by ring
        rw [h4, wrapInt_mul_left]
        push_cast
        exact congrArg wrapInt (by ring)

theorem totalPoints_none (r : ImageRegion) (h : r.GetSize.prod < 2147483648) :
    totalPoints r none = (r.GetSize.prod : Int) := by
  have h1 : wrapInt (totalPoints r none) = totalPoints r none :=
    sizeLoop_range none _ 0 1 (by decide)
  rw [← h1, totalPoints, sizeLoop_none, one_mul]
  exact wrapInt_of_range _ (by omega) (by omega)

theorem totalPoints_some (r : ImageRegion) (k : Nat) (sliceIndex : Int)
    (hlen : r.length ≤ 3) (h : (r.GetSize.set k 1).prod < 2147483648) :
    totalPoints r (some ((k : Int), sliceIndex)) = ((r.GetSize.set k 1).prod : Int) := by
  have h1 : wrapInt (totalPoints r (some ((k : Int), sliceIndex))) =
      totalPoints r (some ((k : Int), sliceIndex)) :=
    sizeLoop_range _ _ 0 1 (by decide)
  have hl : 0 + r.GetSize.length ≤ 2147483648 := by
    simp only [ImageRegion.GetSize, List.length_map]
    omega
  rw [← h1, totalPoints, sizeLoop_some _ _ _ _ _ hl, one_mul]
  simp only [Nat.zero_le, if_true, Nat.sub_zero]
  exact wrapInt_of_range _ (by omega) (by omega)

theorem prod_set_one_le (sizes : List Nat) (k n : Nat) (hk : sizes[k]? = some n)
    (hn : 1 ≤ n) : (sizes.set k 1).prod ≤ sizes.prod := by
  induction sizes generalizing k with
  | nil => simp at hk
  | cons s rest ih =>
      cases k with
      | zero =>
          simp only [List.getElem?_cons_zero, Option.some.injEq] at hk
          subst hk
          simp only [List.set_cons_zero, List.prod_cons, one_mul]
          exact Nat.le_mul_of_pos_left _ hn
      | succ j =>
          simp only [List.getElem?_cons_succ] at hk
          simp only [List.set_cons_succ, List.prod_cons]
          exact Nat.mul_le_mul_left _ (ih j hk)

theorem countP_range_eq (start s : Int) (n : Nat) :
    (List.range n).countP (fun (k : Nat) => decide (start + (k : Int) = s)) =
      if start ≤ s ∧ s < start + (n : Int) then 1 else 0 := by
  induction n with
  | zero =>
      have h : ¬ (start ≤ s ∧ s < start + ((0 : Nat) : Int)) := by omega
      simp only [List.range_zero, List.countP_nil, h, if_false]
  | succ m ih =>
      rw [List.range_succ, List.countP_append, ih]
      simp only [List.countP_cons, List.countP_nil, decide_eq_true_eq]
      push_cast
      split_ifs <;> omega

theorem countP_slice (r : ImageRegion) (k : Nat) (s start : Int) (n : Nat)
    (hk : r[k]? = some (start, n)) (h1 : start ≤ s) (h2 : s < start + (n : Int)) :
    (rasterIndices r).countP (fun idx => decide (idx[k]? = some s)) =
      (r.GetSize.set k 1).prod := by
  induction r generalizing k with
  | nil => simp at hk
  | cons a rest ih =>
      obtain ⟨start0, n0⟩ := a
      cases k with
      | zero =>
          simp only [List.getElem?_cons_zero, Option.some.injEq, Prod.mk.injEq] at hk
          obtain ⟨rfl, rfl⟩ := hk
          have hsum : ∀ l : List (List Int),
              (l.flatMap (fun tail => (List.range n0).map
                (fun (k : Nat) => (start0 + (k : Int)) :: tail))).countP
                  (fun idx => decide (idx[0]? = some s)) = l.length := by
            intro l
            induction l with
            | nil => simp
            | cons t ts iht =>
                simp only [List.flatMap_cons, List.countP_append, iht, List.countP_map,
                  List.length_cons]
                have hc := countP_range_eq start0 s n0
                simp only [h1, h2, and_self, if_true] at hc
                have hfun : ((fun idx : List Int => decide (idx[0]? = some s)) ∘
                    fun (k : Nat) => (start0 + (k : Int)) :: t) =
                    fun (k : Nat) => decide (start0 + (k : Int) = s) := by
                  funext j; simp
                rw [hfun, hc]; omega
          simp only [rasterIndices, hsum, length_rasterIndices, ImageRegion.GetSize,
            List.map_cons, List.set_cons_zero, List.prod_cons, one_mul]
      | succ j =>
          simp only [List.getElem?_cons_succ] at hk
          have hsum : ∀ l : List (List Int),
              (l.flatMap (fun tail => (List.range n0).map
                (fun (k : Nat) => (start0 + (k : Int)) :: tail))).countP
                  (fun idx => decide (idx[j + 1]? = some s)) =
                n0 * l.countP (fun idx => decide (idx[j]? = some s)) := by
            intro l
            induction l with
            | nil => simp
            | cons t ts iht =>
                simp only [List.flatMap_cons, List.countP_append, iht, List.countP_map,
                  List.countP_cons]
                have hfun : ((fun idx : List Int => decide (idx[j + 1]? = some s)) ∘
                    fun (k : Nat) => (start0 + (k : Int)) :: t) =
                    fun (_ : Nat) => decide (t[j]? = some s) := by
                  funext i; simp
                rw [hfun]
                by_cases ht : t[j]? = some s
                · simp [ht, List.countP_true, Nat.mul_add]; ring
                · simp [ht, List.countP_false]
          simp only [rasterIndices, hsum, ih j hk, ImageRegion.GetSize, List.map_cons,
            List.set_cons_succ, List.prod_cons]

theorem mem_rasterIndices_iff (r : ImageRegion) (idx : List Int) :
    idx ∈ rasterIndices r ↔
      List.Forall₂ (fun (ax : Int × Nat) (i : Int) => ax.1 ≤ i ∧ i < ax.1 + (ax.2 : Int))
        r idx := by
  induction r generalizing idx with
  | nil => simp [rasterIndices]
  | cons a rest ih =>
      obtain ⟨start, n⟩ := a
      simp only [rasterIndices, List.mem_flatMap, List.mem_map, List.mem_range,
        List.forall₂_cons_left_iff]
      constructor
      · rintro ⟨tail, htail, k, hk, rfl⟩
        exact ⟨start + (k : Int), tail, ⟨by omega, by omega⟩, (ih tail).mp htail, rfl⟩
      · rintro ⟨b, tail, ⟨hb1, hb2⟩, htail, rfl⟩
        refine ⟨tail, (ih tail).mpr htail, (b - start).toNat, by omega, ?_⟩
        have hb : start + ((b - start).toNat : Int) = b := by omega
        rw [hb]

theorem pairwise_rasterIndices (r : ImageRegion) :
    (rasterIndices r).Pairwise rasterBefore := by
  induction r with
  | nil => simp [rasterIndices]
  | cons a rest ih =>
      obtain ⟨start, n⟩ := a
      simp only [rasterIndices]
      rw [List.pairwise_flatMap]
      constructor
      · intro tail _
        rw [List.pairwise_map]
        exact (List.pairwise_lt_range n).imp
          (fun {a b} hab => Or.inr ⟨rfl, by omega⟩)
      · refine ih.imp ?_
        intro t1 t2 h12 x hx y hy
        simp only [List.mem_map, List.mem_range] at hx hy
        obtain ⟨k1, _, rfl⟩ := hx
        obtain ⟨k2, _, rfl⟩ := hy
        exact Or.inl h12

theorem passes_iff {P : Type} (mask : Image P Int) (slice : SliceSelection) (idx : List Int)
    (h0 : ∀ a s, slice = some (a, s) → 0 ≤ a) :
    passes mask slice idx = true ↔
      mask.buffer idx ≠ 0 ∧ ∀ a s, slice = some (a, s) → idx[a.toNat]? = some s := by
  cases slice with
  | none => simp [passes]
  | some sel =>
      obtain ⟨a, s⟩ := sel
      have ha : 0 ≤ a := h0 a s rfl
      simp only [passes, indexAt, ha, if_true, Bool.and_eq_true, decide_eq_true_eq,
        Option.some.injEq, Prod.mk.injEq, and_imp]
      constructor
      · rintro ⟨hm, hs⟩
        exact ⟨hm, fun a1 s1 h1 h2 => by subst h1; subst h2; exact hs⟩
      · rintro ⟨hm, hs⟩
        exact ⟨hm, hs a s rfl rfl⟩

theorem exportField_spec {D F : Type} (toFloat : D → F)
    (field : Image (Nat → D) (Nat → D)) (mask : Image (Nat → D) Int)
    (slice : SliceSelection) (x0 v0 : Float3 F)
    (hgrid : mask.LargestPossibleRegion = field.LargestPossibleRegion)
    (hdim : field.LargestPossibleRegion.ImageDimension ≤ 3)
    (hsize : field.LargestPossibleRegion.GetSize.prod < 2147483648)
    (hslice : ∀ a s, slice = some (a, s) →
      0 ≤ a ∧ a < (field.LargestPossibleRegion.ImageDimension : Int)) :
    ∃ grid, exportField toFloat field mask slice x0 v0 = some grid ∧
      grid.points =
        ((rasterIndices mask.LargestPossibleRegion).filter (passes mask slice)).map
          (fun idx => some (components field.LargestPossibleRegion.ImageDimension toFloat
            (field.TransformIndexToPhysicalPoint idx) x0)) ∧
      grid.vectors.take grid.points.length =
        ((rasterIndices mask.LargestPossibleRegion).filter (passes mask slice)).map
          (fun idx => some (components field.LargestPossibleRegion.ImageDimension toFloat
            (field.buffer idx) v0)) ∧
      grid.vectors.length =
        max (totalPoints field.LargestPossibleRegion slice).toNat grid.points.length := by
  have hl : ∀ idx ∈ rasterIndices mask.LargestPossibleRegion,
      field.LargestPossibleRegion.IsInside idx = true ∧
        ∀ a s, slice = some (a, s) → ∃ c, indexAt idx a = some c := by
    intro idx hidx
    rw [hgrid] at hidx
    obtain ⟨hin, hlen⟩ := isInside_rasterIndices _ idx hidx
    refine ⟨hin, fun a s hs => ?_⟩
    obtain ⟨h0, h1⟩ := hslice a s hs
    exact indexAt_isSome idx a h0 (by rw [hlen]; exact h1)
  have hcount : (rasterIndices mask.LargestPossibleRegion).length < 2147483648 := by
    rw [hgrid, length_rasterIndices]
    exact hsize
  obtain ⟨st1, hrun, hpoints, _, hlen, htake⟩ :=
    mainLoop_spec toFloat field mask slice x0 v0 hdim _ hl
      { offset := 0, x := x0, v := v0, points := [],
        vectors := SetNumberOfTuples (totalPoints field.LargestPossibleRegion slice) }
      rfl (Nat.zero_le _) (by simpa using hcount) (fun _ => rfl) (fun _ => rfl)
  refine ⟨{ points := st1.points, vectors := st1.vectors }, ?_, ?_, ?_, ?_⟩
  · simp only [exportField, hrun]
  · simpa using hpoints
  · simpa using htake
  · rw [hlen]; simp [SetNumberOfTuples]

theorem mainLoop_negative {D F : Type} (toFloat : D → F) (field : Image (Nat → D) (Nat → D))
    (mask : Image (Nat → D) Int) (slice : SliceSelection)
    (hdim : field.LargestPossibleRegion.ImageDimension ≤ 3) (idx : List Int)
    (rest : List (List Int)) (st : LoopState F)
    (hin : field.LargestPossibleRegion.IsInside idx = true)
    (hax : ∀ a s, slice = some (a, s) → ∃ c, indexAt idx a = some c)
    (hp : passes mask slice idx = true) (hneg : st.offset < 0) :
    mainLoop toFloat field mask slice (idx :: rest) st = none := by
  simp only [mainLoop, loopBody_eq toFloat field mask slice st idx hdim hin hax, hp, if_true,
    hneg]

/-- Once `offset` has counted `2^31` inserts it is negative, and the next insert
writes before the arrays. -/
theorem mainLoop_overflow {D F : Type} (toFloat : D → F) (field : Image (Nat → D) (Nat → D))
    (mask : Image (Nat → D) Int) (slice : SliceSelection)
    (hdim : field.LargestPossibleRegion.ImageDimension ≤ 3) (l : List (List Int))
    (hl : ∀ idx ∈ l, field.LargestPossibleRegion.IsInside idx = true ∧
      (∀ a s, slice = some (a, s) → ∃ c, indexAt idx a = some c) ∧
      passes mask slice idx = true) :
    ∀ st : LoopState F, st.offset = (st.points.length : Int) →
      st.points.length < 2147483648 → 2147483648 < st.points.length + l.length →
      mainLoop toFloat field mask slice l st = none := by
  induction l with
  | nil =>
      intro st _ hlt hgt
      simp only [List.length_nil] at hgt
      omega
  | cons idx rest ih =>
      intro st hoff hlt hgt
      obtain ⟨hin, hax, hp⟩ := hl idx (List.mem_cons_self _ _)
      have hrest : ∀ i ∈ rest, field.LargestPossibleRegion.IsInside i = true ∧
          (∀ a s, slice = some (a, s) → ∃ c, indexAt i a = some c) ∧
          passes mask slice i = true :=
        fun i hi => hl i (List.mem_cons_of_mem _ hi)
      simp only [List.length_cons] at hgt
      have hnonneg : ¬ st.offset < 0 := by omega
      have htoNat : st.offset.toNat = st.points.length := by omega
      simp only [mainLoop, loopBody_eq toFloat field mask slice st idx hdim hin hax, hp, if_true,
        hnonneg, if_false, htoNat, InsertTuple_length_self]
      by_cases hnext : st.points.length + 1 < 2147483648
      · apply ih hrest
        · simp only [List.length_append, List.length_singleton]
          rw [wrapInt_of_range _ (by omega) (by omega), hoff]
          push_cast
          rfl
        · simp only [List.length_append, List.length_singleton]
          exact hnext
        · simp only [List.length_append, List.length_singleton]
          omega
      · have hwrap : wrapInt (st.offset + 1) < 0 := by
          unfold wrapInt
          omega
        cases rest with
        | nil =>
            simp only [List.length_nil] at hgt
            omega
        | cons idx1 rest1 =>
            obtain ⟨hin1, hax1, hp1⟩ := hrest idx1 (List.mem_cons_self _ _)
            exact mainLoop_negative toFloat field mask slice hdim idx1 rest1 _ hin1 hax1 hp1
              hwrap

theorem passes_defaultMask_none {P T : Type} (field : Image P T) (idx : List Int) :
    passes (defaultMask field) none idx = true := by
  simp [passes, defaultMask]

theorem passes_defaultMask_some {P T : Type} (field : Image P T) (a : Nat) (s : Int)
    (idx : List Int) :
    passes (defaultMask field) (some ((a : Int), s)) idx = decide (idx[a]? = some s) := by
  simp [passes, defaultMask, indexAt]

/-- With the default mask and no slice, a field of more than `2^31` voxels makes
the export undefined. -/
theorem exportField_overflow {D F : Type} (toFloat : D → F)
    (field : Image (Nat → D) (Nat → D)) (x0 v0 : Float3 F)
    (hdim : field.LargestPossibleRegion.ImageDimension ≤ 3)
    (hbig : 2147483648 < field.LargestPossibleRegion.GetSize.prod) :
    exportField toFloat field (defaultMask field) none x0 v0 = none := by
  have hl : ∀ idx ∈ rasterIndices field.LargestPossibleRegion,
      field.LargestPossibleRegion.IsInside idx = true ∧
        (∀ a s, (none : SliceSelection) = some (a, s) → ∃ c, indexAt idx a = some c) ∧
        passes (defaultMask field) none idx = true := by
    intro idx hidx
    exact ⟨(isInside_rasterIndices _ idx hidx).1, (fun a s h => by cases h),
      passes_defaultMask_none field idx⟩
  have hrun := mainLoop_overflow toFloat field (defaultMask field) none hdim
    (rasterIndices (defaultMask field).LargestPossibleRegion) hl
    { offset := 0, x := x0, v := v0, points := [],
      vectors := SetNumberOfTuples (totalPoints field.LargestPossibleRegion none) }
    rfl (by simp) (by
      rw [show (defaultMask field).LargestPossibleRegion = field.LargestPossibleRegion from rfl,
        length_rasterIndices]
      simpa using hbig)
  simp only [exportField, hrun]

theorem main_three_arguments {D F : Type} (w : World D F) (program input output : String) :
    main w [program, input, output] =
      match exportField w.toFloat (w.readField input) (defaultMask (w.readField input)) none
          w.x0 w.v0 with
      | some grid => ProgramResult.written output grid
      | none => ProgramResult.undefined := by
  simp [main, readSlice]

/-- C1 at three failing inputs. With the slice axis 3 on the grid of three axes of
`exampleField`, the component `idx[3]` is read past the index and the export is
undefined. On a field of four axes the fourth component is written past the
buffers `x` and `v`. On the `2^32` voxels of `wideField`, all of which pass,
`offset` is negative after `2^31` inserts and the next insert is undefined. -/
theorem exportField_examples_undefined :
    (exampleMask.LargestPossibleRegion = exampleField.LargestPossibleRegion ∧
      exportField (id : Int → Int) exampleField exampleMask (some (3, 0)) (7, 7, 7) (9, 9, 9) =
        none) ∧
    exportField (id : Int → Int) fourAxisField (defaultMask fourAxisField) none (7, 7, 7)
      (9, 9, 9) = none ∧
    exportField (id : Int → Int) wideField (defaultMask wideField) none (7, 7, 7) (9, 9, 9) =
      none :=
  ⟨⟨by decide, by decide⟩, by decide,
    exportField_overflow (id : Int → Int) wideField (7, 7, 7) (9, 9, 9) (by decide) (by decide)⟩

/-- C1 as amended. The main loop exports exactly the passing indices, in raster
order. For every field of at most three axes and fewer than `2^31` voxels, every
mask over the field's grid and every slice selection whose axis is an axis of
the grid, the export is defined and there is a list `order` of indices such
that: an index is in `order` exactly when it lies in the grid, the mask is not 0
there and, with a slice, its component on the slice axis is the slice index;
`order` is in raster order, each index once; the point array is the list of the
points of `order`; and the first entries of the vector array are the field's
vectors at `order`, entry `k` belonging to the `k`-th index. -/
theorem exportField_eq_passing {D F : Type} (toFloat : D → F)
    (field : Image (Nat → D) (Nat → D)) (mask : Image (Nat → D) Int)
    (slice : SliceSelection) (x0 v0 : Float3 F)
    (hgrid : mask.LargestPossibleRegion = field.LargestPossibleRegion)
    (hdim : field.LargestPossibleRegion.length ≤ 3)
    (hsize : (field.LargestPossibleRegion.map Prod.snd).prod < 2147483648)
    (hslice : ∀ a s, slice = some (a, s) →
      0 ≤ a ∧ a < (field.LargestPossibleRegion.length : Int)) :
    ∃ (grid : vtkUnstructuredGrid F) (order : List (List Int)),
      exportField toFloat field mask slice x0 v0 = some grid ∧
      (∀ idx, idx ∈ order ↔
        List.Forall₂ (fun (ax : Int × Nat) (i : Int) => ax.1 ≤ i ∧ i < ax.1 + (ax.2 : Int))
            mask.LargestPossibleRegion idx ∧
          mask.buffer idx ≠ 0 ∧
          ∀ a s, slice = some (a, s) → idx[a.toNat]? = some s) ∧
      order.Pairwise rasterBefore ∧
      grid.points =
        order.map (fun idx => some (components field.LargestPossibleRegion.length toFloat
          (field.TransformIndexToPhysicalPoint idx) x0)) ∧
      grid.vectors.take grid.points.length =
        order.map (fun idx => some (components field.LargestPossibleRegion.length toFloat
          (field.buffer idx) v0)) := by
  obtain ⟨grid, h1, h2, h3, _⟩ :=
    exportField_spec toFloat field mask slice x0 v0 hgrid hdim hsize hslice
  refine ⟨grid, (rasterIndices mask.LargestPossibleRegion).filter (passes mask slice), h1,
    fun idx => ?_, (pairwise_rasterIndices _).filter _, h2, h3⟩
  rw [List.mem_filter, mem_rasterIndices_iff,
    passes_iff mask slice idx (fun a s h => (hslice a s h).1)]

/-- C1 as amended, at `exampleField` and `exampleMask` with the slice of axis 1 at
index 1: the indices (0, 1, 0) and (1, 1, 0) are exported, in this order. -/
theorem exportField_eq_passing_example :
    exampleMask.LargestPossibleRegion = exampleField.LargestPossibleRegion ∧
    ∃ (grid : vtkUnstructuredGrid Int) (order : List (List Int)),
      exportField (id : Int → Int) exampleField exampleMask (some (1, 1)) (7, 7, 7) (9, 9, 9) =
        some grid ∧
      (∀ idx, idx ∈ order ↔
        List.Forall₂ (fun (ax : Int × Nat) (i : Int) => ax.1 ≤ i ∧ i < ax.1 + (ax.2 : Int))
            exampleMask.LargestPossibleRegion idx ∧
          exampleMask.buffer idx ≠ 0 ∧
          ∀ a s, (some (1, 1) : SliceSelection) = some (a, s) → idx[a.toNat]? = some s) ∧
      order.Pairwise rasterBefore ∧
      grid.points =
        order.map (fun idx => some (components exampleField.LargestPossibleRegion.length id
          (exampleField.TransformIndexToPhysicalPoint idx) (7, 7, 7))) ∧
      grid.vectors.take grid.points.length =
        order.map (fun idx => some (components exampleField.LargestPossibleRegion.length id
          (exampleField.buffer idx) (9, 9, 9))) :=
  ⟨by decide,
    exportField_eq_passing (id : Int → Int) exampleField exampleMask (some (1, 1)) (7, 7, 7)
      (9, 9, 9) (by decide) (by decide) (by decide) (by intro a s h; cases h; decide)⟩

/-- C3 at failing inputs. On the `2^32` voxels of `wideField` the product of the
grid sizes is 4294967296 while `totalPoints`, an `int`, is 0, and the export
with the default mask is undefined; on a field of four axes the export with the
default mask is undefined as well. -/
theorem exportField_defaultMask_examples_differ :
    wideField.LargestPossibleRegion.GetSize.prod = 4294967296 ∧
    totalPoints wideField.LargestPossibleRegion none = 0 ∧
    exportField (id : Int → Int) wideField (defaultMask wideField) none (7, 7, 7) (9, 9, 9) =
      none ∧
    exportField (id : Int → Int) fourAxisField (defaultMask fourAxisField) none (7, 7, 7)
      (9, 9, 9) = none :=
  ⟨by decide, by decide,
    exportField_overflow (id : Int → Int) wideField (7, 7, 7) (9, 9, 9) (by decide) (by decide),
    by decide⟩

/-- C3 as amended. Export with the default mask. The default mask has the region
of the field and is 1 everywhere, so every index passes it. For a field of at
most three axes and fewer than `2^31` voxels the export with it and no slice has
as many points as the product of the grid sizes; with a slice on an axis `a` of
the grid at an index `s` inside the extent of that axis it has as many points as
the product of the sizes with the size of axis `a` replaced by 1. In both cases
that number is `totalPoints`. -/
theorem exportField_defaultMask_count {D F : Type} (toFloat : D → F)
    (field : Image (Nat → D) (Nat → D)) (x0 v0 : Float3 F)
    (hdim : field.LargestPossibleRegion.ImageDimension ≤ 3)
    (hsize : field.LargestPossibleRegion.GetSize.prod < 2147483648) :
    ((defaultMask field).LargestPossibleRegion = field.LargestPossibleRegion ∧
      (∀ idx, (defaultMask field).buffer idx = 1) ∧
      ∀ idx, passes (defaultMask field) none idx = true) ∧
    (∃ grid, exportField toFloat field (defaultMask field) none x0 v0 = some grid ∧
      grid.points.length = field.LargestPossibleRegion.GetSize.prod ∧
      (grid.points.length : Int) = totalPoints field.LargestPossibleRegion none) ∧
    (∀ (a : Nat) (s start : Int) (n : Nat),
      field.LargestPossibleRegion[a]? = some (start, n) → start ≤ s → s < start + (n : Int) →
      ∃ grid, exportField toFloat field (defaultMask field) (some ((a : Int), s)) x0 v0 =
          some grid ∧
        grid.points.length = (field.LargestPossibleRegion.GetSize.set a 1).prod ∧
        (grid.points.length : Int) =
          totalPoints field.LargestPossibleRegion (some ((a : Int), s))) := by
  refine ⟨⟨rfl, fun _ => rfl, passes_defaultMask_none field⟩, ?_, ?_⟩
  · obtain ⟨grid, hgrid, hpoints, _, _⟩ :=
      exportField_spec toFloat field (defaultMask field) none x0 v0 rfl hdim hsize
        (by intro a s h; cases h)
    have hlen : grid.points.length = field.LargestPossibleRegion.GetSize.prod := by
      rw [hpoints, List.length_map, ← List.countP_eq_length_filter]
      have hall : passes (defaultMask field) none = fun _ => true := by
        funext idx; exact passes_defaultMask_none field idx
      rw [hall, List.countP_true, length_rasterIndices]
      rfl
    exact ⟨grid, hgrid, hlen, by rw [hlen, totalPoints_none _ hsize]⟩
  · intro a s start n ha h1 h2
    have hlt : a < field.LargestPossibleRegion.length := by
      by_contra hge
      rw [List.getElem?_eq_none (by omega)] at ha
      cases ha
    obtain ⟨grid, hgrid, hpoints, _, _⟩ :=
      exportField_spec toFloat field (defaultMask field) (some ((a : Int), s)) x0 v0 rfl
        hdim hsize (by
          intro a1 s1 h
          cases h
          exact ⟨Int.natCast_nonneg a, by exact_mod_cast hlt⟩)
    have hlen : grid.points.length = (field.LargestPossibleRegion.GetSize.set a 1).prod := by
      rw [hpoints, List.length_map, ← List.countP_eq_length_filter]
      have hall : passes (defaultMask field) (some ((a : Int), s)) =
          fun idx => decide (idx[a]? = some s) := by
        funext idx; exact passes_defaultMask_some field a s idx
      rw [hall]
      exact countP_slice field.LargestPossibleRegion a s start n ha h1 h2
    have hsizes : field.LargestPossibleRegion.GetSize[a]? = some n := by
      simp only [ImageRegion.GetSize, List.getElem?_map, ha, Option.map_some']
    have hle := prod_set_one_le _ a n hsizes (by omega)
    exact ⟨grid, hgrid, hlen, by
      rw [hlen, totalPoints_some _ _ _ hdim (by omega)]⟩

/-- C3 as amended, at `exampleField`: 4 points without a slice, 2 with the slice of
axis 1 at index 1. -/
theorem exportField_defaultMask_count_example :
    exampleField.LargestPossibleRegion.ImageDimension ≤ 3 ∧
    exampleField.LargestPossibleRegion.GetSize.prod < 2147483648 ∧
    (∃ grid, exportField id exampleField (defaultMask exampleField) none (7, 7, 7) (9, 9, 9) =
        some grid ∧ grid.points.length = 4) ∧
    (∃ grid, exportField id exampleField (defaultMask exampleField) (some (1, 1)) (7, 7, 7)
        (9, 9, 9) = some grid ∧ grid.points.length = 2) := by
  have h := exportField_defaultMask_count (id : Int → Int) exampleField (7, 7, 7) (9, 9, 9)
    (by decide) (by decide)
  obtain ⟨_, ⟨g1, hg1, hl1, _⟩, hslice⟩ := h
  obtain ⟨g2, hg2, hl2, _⟩ := hslice 1 1 0 2 (by decide) (by decide) (by decide)
  exact ⟨by decide, by decide, ⟨g1, hg1, hl1⟩, ⟨g2, hg2, hl2⟩⟩

/-- C2 at a failing input: `exampleField` with `exampleMask`, which is 0 at one of
the four voxels, and no slice (the command line `program in out mask`). The
written grid has three points and four vector tuples, the last one never
written; `totalPoints` is 4. -/
theorem main_example_more_vectors_than_points :
    main exampleWorld ["program", "in", "out", "mask"] =
      (ProgramResult.written "out"
        { points := [some (0, 0, 0), some (0, 10, 0), some (10, 10, 0)]
          vectors := [some (0, 1, 2), some (2, 3, 4), some (3, 4, 5), none] } :
        ProgramResult Int) ∧
    totalPoints exampleField.LargestPossibleRegion none = 4 := by
  decide

theorem readSlice_five (argv : List String) (h : argv.length = 5) :
    readSlice argv = none := by
  have h4 : argv.length > 4 := by omega
  have h5 : argv[5]? = none := List.getElem?_eq_none (by omega)
  simp only [readSlice, h4, if_true, h5]

/-- On a command line of five arguments the run is undefined, whatever the files
hold: the slice is read with `argv[5]`, which is the null pointer. -/
theorem main_five_arguments {D F : Type} (w : World D F) (argv : List String)
    (h : argv.length = 5) : main w argv = ProgramResult.undefined := by
  have hslice : readSlice argv = none := readSlice_five argv h
  have h3 : ¬ argv.length < 3 := by omega
  simp only [main, h3, if_false, hslice]
  split
  · split <;> first | rfl | (rename_i hm; revert hm; split <;> simp)
  · rfl

/-- The arguments read lie inside the command line except when it has exactly
five arguments. -/
theorem argumentsRead_inside_iff (argc : Nat) (h : 3 ≤ argc) :
    (∀ k ∈ argumentsRead argc, k < argc) ↔ argc ≠ 5 := by
  unfold argumentsRead
  by_cases h4 : argc ≥ 4 <;> by_cases h5 : argc > 4 <;>
    simp only [h4, h5, if_true, if_false, List.append_nil, List.nil_append] <;>
    simp <;> omega

/-- C11 at a failing input: the command line `program in out mask 1` has five
arguments, the slice without the axis. The program reads `argv[5]`, which is not
an argument, and the run is undefined. -/
theorem main_example_reads_argv5 :
    ["program", "in", "out", "mask", "1"].length = 5 ∧
      5 ∈ argumentsRead 5 ∧
      readSlice ["program", "in", "out", "mask", "1"] = none ∧
      main exampleWorld ["program", "in", "out", "mask", "1"] =
        (ProgramResult.undefined : ProgramResult Int) := by
  decide

end ConvertVectorFieldToVTK

/-! The multi-resolution scheduler. -/

namespace itk.MultiResolutionPDEDeformableRegistration

theorem compareLoop_congr (data data1 stored : List Nat) (r i : Nat)
    (h : ∀ j, j < i + r → data[j]? = data1[j]?) :
    compareLoop data stored r i = compareLoop data1 stored r i := by
  induction r generalizing i with
  | zero => rfl
  | succ r ih =>
      simp only [compareLoop]
      rw [h i (by omega), ih (i + 1) (fun j hj => h j (by omega))]

theorem assignLoop_congr (data data1 : List Nat) (r i : Nat) (stored : List Nat)
    (h : ∀ j, j < i + r → data[j]? = data1[j]?) :
    assignLoop data r i stored = assignLoop data1 r i stored := by
  induction r generalizing i stored with
  | zero => rfl
  | succ r ih =>
      simp only [assignLoop]
      rw [h i (by omega)]
      cases data1[i]? with
      | none => rfl
      | some d =>
          simp only []
          split_ifs
          · exact ih (i + 1) _ (fun j hj => h j (by omega))
          · rfl

theorem compareLoop_spec (data stored : List Nat) (r i : Nat)
    (h1 : i + r ≤ data.length) (h2 : i + r ≤ stored.length) :
    ∃ k, compareLoop data stored r i = some k ∧ k ≤ i + r ∧
      (k = i + r → ∀ j, i ≤ j → j < i + r → data[j]? = stored[j]?) := by
  induction r generalizing i with
  | zero => exact ⟨i, rfl, by omega, fun _ j hj1 hj2 => by omega⟩
  | succ r ih =>
      have hd : i < data.length := by omega
      have hm : i < stored.length := by omega
      simp only [compareLoop, List.getElem?_eq_getElem hd, List.getElem?_eq_getElem hm]
      by_cases hne : data[i] ≠ stored[i]
      · exact ⟨i, by simp [hne], by omega, fun hk => by omega⟩
      · obtain ⟨k, hk, hle, hall⟩ := ih (i + 1) (by omega) (by omega)
        refine ⟨k, by simp [hne, hk], by omega, fun hkeq j hj1 hj2 => ?_⟩
        rcases Nat.eq_or_lt_of_le hj1 with rfl | hlt
        · rw [List.getElem?_eq_getElem hd, List.getElem?_eq_getElem hm]
          push_neg at hne
          rw [hne]
        · exact hall (by omega) j hlt (by omega)

theorem assignLoop_spec (data : List Nat) (r i : Nat) (stored : List Nat)
    (h1 : i + r ≤ data.length) (h2 : i + r ≤ stored.length) :
    ∃ out, assignLoop data r i stored = some out ∧ out.length = stored.length ∧
      ∀ j, out[j]? = if i ≤ j ∧ j < i + r then data[j]? else stored[j]? := by
  induction r generalizing i stored with
  | zero =>
      refine ⟨stored, rfl, rfl, fun j => ?_⟩
      have hno : ¬ (i ≤ j ∧ j < i + 0) := by omega
      rw [if_neg hno]
  | succ r ih =>
      have hd : i < data.length := by omega
      have hm : i < stored.length := by omega
      obtain ⟨out, hout, hlen, hget⟩ :=
        ih (i + 1) (stored.set i data[i]) (by omega) (by simp only [List.length_set]; omega)
      refine ⟨out, ?_, by simpa using hlen, fun j => ?_⟩
      · simp only [assignLoop, List.getElem?_eq_getElem hd, hm, if_true]
        exact hout
      · rw [hget j, List.getElem?_set]
        by_cases hij : i = j
        · subst hij
          have h3 : ¬ (i + 1 ≤ i ∧ i < i + 1 + r) := by omega
          have h4 : i ≤ i ∧ i < i + (r + 1) := by omega
          simp [h3, h4, hm, List.getElem?_eq_getElem hd]
        · by_cases h5 : i + 1 ≤ j ∧ j < i + 1 + r
          · have h6 : i ≤ j ∧ j < i + (r + 1) := by omega
            simp [h5, h6]
          · have h6 : ¬ (i ≤ j ∧ j < i + (r + 1)) := by omega
            simp [h5, h6, hij]

theorem compareLoop_short (data stored : List Nat) (r i : Nat)
    (hi : i ≤ data.length) (h : data.length < i + r) :
    compareLoop data stored r i = none ∨
      ∃ k, compareLoop data stored r i = some k ∧ k < i + r := by
  induction r generalizing i with
  | zero => omega
  | succ r ih =>
      simp only [compareLoop]
      cases hd : data[i]? with
      | none => exact Or.inl rfl
      | some d =>
          cases hm : stored[i]? with
          | none => exact Or.inl rfl
          | some m =>
              have hlt : i < data.length := by
                by_contra hge
                rw [List.getElem?_eq_none (by omega)] at hd
                cases hd
              simp only []
              by_cases hne : d ≠ m
              · exact Or.inr ⟨i, by simp [hne], by omega⟩
              · rcases ih (i + 1) (by omega) (by omega) with hnone | ⟨k, hk, hklt⟩
                · exact Or.inl (by simp [hne, hnone])
                · exact Or.inr ⟨k, by simp [hne, hk], by omega⟩

theorem assignLoop_short (data : List Nat) (r i : Nat) (stored : List Nat)
    (hi : i ≤ data.length) (h : data.length < i + r) :
    assignLoop data r i stored = none := by
  induction r generalizing i stored with
  | zero => omega
  | succ r ih =>
      simp only [assignLoop]
      cases hd : data[i]? with
      | none => rfl
      | some d =>
          have hlt : i < data.length := by
            by_contra hge
            rw [List.getElem?_eq_none (by omega)] at hd
            cases hd
          simp only []
          split_ifs
          · exact ih (i + 1) _ (by omega) (by omega)
          · rfl

/-- What `SetNumberOfIterations` does with an array of at least `m_NumberOfLevels`
entries on a filter whose vector has at least that many: it returns, only the
modification time and the vector differ afterwards, and the vector holds the
array's entries below `m_NumberOfLevels` and its old entries from there on. -/
theorem SetNumberOfIterations_spec (s : MultiResolutionPDEDeformableRegistration)
    (data : List Nat) (hs : s.m_NumberOfLevels ≤ s.m_NumberOfIterations.length)
    (hd : s.m_NumberOfLevels ≤ data.length) :
    ∃ s1, s.SetNumberOfIterations data = Outcome.returned s1 ∧
      s1 = { s with MTime := s1.MTime, m_NumberOfIterations := s1.m_NumberOfIterations } ∧
      s1.m_NumberOfIterations.length = s.m_NumberOfIterations.length ∧
      ∀ j, s1.m_NumberOfIterations[j]? =
        if j < s.m_NumberOfLevels then data[j]? else s.m_NumberOfIterations[j]? := by
  obtain ⟨k, hk, hle, hall⟩ :=
    compareLoop_spec data s.m_NumberOfIterations s.m_NumberOfLevels 0 (by omega) (by omega)
  obtain ⟨out, hout, hlen, hget⟩ :=
    assignLoop_spec data s.m_NumberOfLevels 0 s.m_NumberOfIterations (by omega) (by omega)
  by_cases hlt : k < s.m_NumberOfLevels
  · refine ⟨{ Modified s with m_NumberOfIterations := out }, ?_, rfl, hlen, fun j => ?_⟩
    · simp only [SetNumberOfIterations, hk, hlt, if_true, hout]
    · simpa using hget j
  · refine ⟨s, ?_, rfl, rfl, fun j => ?_⟩
    · simp only [SetNumberOfIterations, hk, hlt, if_false]
    · by_cases hj : j < s.m_NumberOfLevels
      · simp only [hj, if_true]
        exact (hall (by omega) j (Nat.zero_le j) (by omega)).symm
      · simp only [hj, if_false]

/-- An array with fewer than `m_NumberOfLevels` entries is read past its end. -/
theorem SetNumberOfIterations_short_array (s : MultiResolutionPDEDeformableRegistration)
    (data : List Nat) (hd : data.length < s.m_NumberOfLevels) :
    s.SetNumberOfIterations data = Outcome.undefined := by
  have hassign := assignLoop_short data s.m_NumberOfLevels 0 s.m_NumberOfIterations
    (Nat.zero_le _) (by omega)
  rcases compareLoop_short data s.m_NumberOfIterations s.m_NumberOfLevels 0
    (Nat.zero_le _) (by omega) with hnone | ⟨k, hk, hklt⟩
  · simp only [SetNumberOfIterations, hnone]
  · have hklt1 : k < s.m_NumberOfLevels := by omega
    simp only [SetNumberOfIterations, hk, hklt1, if_true, hassign]

/-- `SetNumberOfIterations` looks at the first `m_NumberOfLevels` entries of its
array only. -/
theorem SetNumberOfIterations_take (s : MultiResolutionPDEDeformableRegistration)
    (data : List Nat) :
    s.SetNumberOfIterations (data.take s.m_NumberOfLevels) = s.SetNumberOfIterations data := by
  have h : ∀ j, j < 0 + s.m_NumberOfLevels →
      (data.take s.m_NumberOfLevels)[j]? = data[j]? := by
    intro j hj
    rw [List.getElem?_take]
    simp only [ite_eq_left_iff]
    omega
  simp only [SetNumberOfIterations, compareLoop_congr _ _ _ _ _ h, assignLoop_congr _ _ _ _ _ h]

/-- On a filter whose vector has `m_NumberOfLevels` entries, an array of at least
that many entries is accepted and its first `m_NumberOfLevels` entries are what
the vector holds afterwards. -/
theorem SetNumberOfIterations_stores_prefix (s : MultiResolutionPDEDeformableRegistration)
    (data : List Nat) (hs : s.m_NumberOfIterations.length = s.m_NumberOfLevels)
    (hd : s.m_NumberOfLevels ≤ data.length) :
    ∃ s1, s.SetNumberOfIterations data = Outcome.returned s1 ∧
      s1.m_NumberOfIterations = data.take s.m_NumberOfLevels ∧
      s1.m_NumberOfLevels = s.m_NumberOfLevels := by
  obtain ⟨s1, hret, hframe, hlen, hget⟩ := SetNumberOfIterations_spec s data (by omega) hd
  refine ⟨s1, hret, ?_, by rw [hframe]⟩
  apply List.ext_getElem?
  intro j
  rw [hget j, List.getElem?_take]
  by_cases hj : j < s.m_NumberOfLevels
  · simp only [hj, if_true]
  · simp only [hj, if_false]
    exact List.getElem?_eq_none (by omega)

theorem perform_CurrentLevel (s : MultiResolutionPDEDeformableRegistration) (c : PublicCall)
    (s1 : MultiResolutionPDEDeformableRegistration) (h : (s.perform c).state? = some s1) :
    s1.m_CurrentLevel = s.m_CurrentLevel := by
  cases c with
  | SetInitialDeformationField ptr =>
      simp only [perform, SetInitialDeformationField, Outcome.state?, Option.some.injEq] at h
      rw [← h]
  | SetRegistrationFilter arg =>
      simp only [perform, SetRegistrationFilter] at h
      split_ifs at h
      · simp only [Outcome.state?, Option.some.injEq] at h
        rw [← h]; rfl
      · simp only [Outcome.state?, Option.some.injEq] at h
        rw [← h]
  | SetFixedImagePyramid arg =>
      simp only [perform, SetFixedImagePyramid] at h
      split_ifs at h
      · simp only [Outcome.state?, Option.some.injEq] at h
        rw [← h]; rfl
      · simp only [Outcome.state?, Option.some.injEq] at h
        rw [← h]
  | SetMovingImagePyramid arg =>
      simp only [perform, SetMovingImagePyramid] at h
      split_ifs at h
      · simp only [Outcome.state?, Option.some.injEq] at h
        rw [← h]; rfl
      · simp only [Outcome.state?, Option.some.injEq] at h
        rw [← h]
  | SetNumberOfIterations data =>
      simp only [perform, SetNumberOfIterations] at h
      split at h
      · simp [Outcome.state?] at h
      · split_ifs at h
        · split at h
          · simp [Outcome.state?] at h
          · simp only [Outcome.state?, Option.some.injEq] at h
            rw [← h]; rfl
        · simp only [Outcome.state?, Option.some.injEq] at h
          rw [← h]
  | GetNumberOfIterations =>
      simp only [perform] at h
      split_ifs at h
      · simp [Outcome.state?] at h
      · simp only [Outcome.state?, Option.some.injEq] at h
        rw [← h]
  | GetDeformationField =>
      simp only [perform, Outcome.state?, Option.some.injEq] at h; rw [← h]
  | GetRegistrationFilter =>
      simp only [perform, Outcome.state?, Option.some.injEq] at h; rw [← h]
  | GetFixedImagePyramid =>
      simp only [perform, Outcome.state?, Option.some.injEq] at h; rw [← h]
  | GetMovingImagePyramid =>
      simp only [perform, Outcome.state?, Option.some.injEq] at h; rw [← h]
  | GetNumberOfLevels =>
      simp only [perform, Outcome.state?, Option.some.injEq] at h; rw [← h]
  | GetCurrentLevel =>
      simp only [perform, Outcome.state?, Option.some.injEq] at h; rw [← h]

/-- C4. `SetInitialDeformationField` fails fast: for every filter and every
pointer, the null pointer included, the call throws the exception "This feature
not implemented yet", does not return, and leaves the filter as it was, every
member included. -/
theorem SetInitialDeformationField_throws (s : MultiResolutionPDEDeformableRegistration)
    (ptr : Pointer) :
    s.SetInitialDeformationField ptr =
        Outcome.threw { description := "This feature not implemented yet" } s ∧
      (∀ s1, s.SetInitialDeformationField ptr ≠ Outcome.returned s1) ∧
      (s.SetInitialDeformationField ptr).state? = some s := by
  refine ⟨rfl, ?_, rfl⟩
  intro s1 h
  cases h

/-- C5 at a failing input: on `exampleFilter`, which has no input yet,
`SetInitialDeformationField` with the field 7 throws and leaves the input unset,
while `SetInput` with the same field returns and makes it the input. -/
theorem SetInitialDeformationField_example_is_not_SetInput :
    exampleFilter.SetInitialDeformationField (some 7) =
        Outcome.threw { description := "This feature not implemented yet" } exampleFilter ∧
      exampleFilter.Input = none ∧
      exampleFilter.SetInput (some 7) =
        Outcome.returned { exampleFilter with Input := some 7, MTime := 1 } := by
  decide

/-- C6 at a failing input: `exampleFilter` has two levels and is given an array
of three entries. The call returns, nothing is thrown, the third entry is
dropped, and the filter is in the state the array of the first two entries
leaves it in. -/
theorem SetNumberOfIterations_example_truncates :
    exampleFilter.m_NumberOfLevels = 2 ∧ [5, 6, 7].length = 3 ∧
      exampleFilter.SetNumberOfIterations [5, 6, 7] =
        Outcome.returned { exampleFilter with MTime := 1, m_NumberOfIterations := [5, 6] } ∧
      exampleFilter.SetNumberOfIterations [5, 6, 7] =
        exampleFilter.SetNumberOfIterations [5, 6] := by
  decide

/-- C6 as amended. On a filter with `n` levels and a vector of `n` entries, an
array of more than `n` entries is accepted: `SetNumberOfIterations` throws
nothing and returns, the vector afterwards holds the first `n` entries of the
array, the number of levels is still `n`, and the outcome is the outcome of the
call with the array cut to its first `n` entries. -/
theorem SetNumberOfIterations_truncates (s : MultiResolutionPDEDeformableRegistration)
    (data : List Nat) (hs : s.m_NumberOfIterations.length = s.m_NumberOfLevels)
    (hlong : s.m_NumberOfLevels < data.length) :
    (∀ e s1, s.SetNumberOfIterations data ≠ Outcome.threw e s1) ∧
      s.SetNumberOfIterations data = s.SetNumberOfIterations (data.take s.m_NumberOfLevels) ∧
      ∃ s1, s.SetNumberOfIterations data = Outcome.returned s1 ∧
        s1.m_NumberOfIterations = data.take s.m_NumberOfLevels ∧
        s1.m_NumberOfLevels = s.m_NumberOfLevels := by
  obtain ⟨s1, hret, hstored, hlev⟩ := SetNumberOfIterations_stores_prefix s data hs (by omega)
  refine ⟨fun e s2 h => ?_, (SetNumberOfIterations_take s data).symm, s1, hret, hstored, hlev⟩
  rw [hret] at h
  cases h

/-- C6 as amended, at `exampleFilter` and the array 5, 6, 7. -/
theorem SetNumberOfIterations_truncates_example :
    exampleFilter.m_NumberOfLevels < [5, 6, 7].length ∧
      ∃ s1, exampleFilter.SetNumberOfIterations [5, 6, 7] = Outcome.returned s1 ∧
        s1.m_NumberOfIterations = [5, 6] ∧ s1.m_NumberOfLevels = 2 :=
  ⟨by decide,
    (SetNumberOfIterations_truncates exampleFilter [5, 6, 7] (by decide) (by decide)).2.2⟩

/-- C7. Round trip of the iterations per level. On a filter with `n ≥ 1` levels
and a vector of `n` entries, `SetNumberOfIterations` with an array of `n` entries
returns, `GetNumberOfIterations` then returns an array whose entry `i` is the
given entry `i` for every `i < n`, and `GetNumberOfLevels` still returns `n`. -/
theorem SetNumberOfIterations_roundtrip (s : MultiResolutionPDEDeformableRegistration)
    (data : List Nat) (n : Nat) (hn : 1 ≤ n) (hlev : s.m_NumberOfLevels = n)
    (hs : s.m_NumberOfIterations.length = n) (hd : data.length = n) :
    ∃ s1, s.SetNumberOfIterations data = Outcome.returned s1 ∧
      (∃ arr, s1.GetNumberOfIterations = some arr ∧ ∀ i, i < n → arr[i]? = data[i]?) ∧
      s1.GetNumberOfLevels = n := by
  obtain ⟨s1, hret, hstored, hlev1⟩ :=
    SetNumberOfIterations_stores_prefix s data (by omega) (by omega)
  have htake : data.take s.m_NumberOfLevels = data := List.take_of_length_le (by omega)
  rw [htake] at hstored
  refine ⟨s1, hret, ⟨data, ?_, fun _ _ => rfl⟩, by simp only [GetNumberOfLevels, hlev1, hlev]⟩
  have hne : data ≠ [] := by
    intro h0
    rw [h0] at hd
    simp at hd
    omega
  simp only [GetNumberOfIterations, hstored, hne, if_false]

/-- C7 at `exampleFilter` and the array 5, 6. -/
theorem SetNumberOfIterations_roundtrip_example :
    ∃ s1, exampleFilter.SetNumberOfIterations [5, 6] = Outcome.returned s1 ∧
      (∃ arr, s1.GetNumberOfIterations = some arr ∧ ∀ i, i < 2 → arr[i]? = [5, 6][i]?) ∧
      s1.GetNumberOfLevels = 2 :=
  SetNumberOfIterations_roundtrip exampleFilter [5, 6] 2 (by decide) (by decide) (by decide)
    (by decide)

/-- C10. The current level is not changed by the public interface. Whatever
sequence of the member functions of lines 152-195 a caller runs on a filter
(`SetInitialDeformationField`, which throws, the three object setters,
`SetNumberOfIterations` and the getters), in every state the filter is left in
`GetCurrentLevel` returns what it returned before. No member function among them
takes a new level as its argument. -/
theorem performAll_preserves_CurrentLevel (s : MultiResolutionPDEDeformableRegistration)
    (calls : List PublicCall) (s1 : MultiResolutionPDEDeformableRegistration)
    (h : (s.performAll calls).state? = some s1) :
    s1.GetCurrentLevel = s.GetCurrentLevel := by
  induction calls generalizing s with
  | nil =>
      simp only [performAll, Outcome.state?, Option.some.injEq] at h
      rw [← h]
  | cons c rest ih =>
      simp only [performAll] at h
      cases hc : s.perform c with
      | returned s2 =>
          rw [hc] at h
          have h2 := perform_CurrentLevel s c s2 (by rw [hc]; rfl)
          rw [ih s2 h]
          exact h2
      | threw e s2 =>
          rw [hc] at h
          have h2 := perform_CurrentLevel s c s2 (by rw [hc]; rfl)
          rw [ih s2 h]
          exact h2
      | undefined =>
          rw [hc] at h
          simp [Outcome.state?] at h

/-- C10 at `exampleFilter`: a new registration filter, the failing call, new
iteration counts and two getters leave the current level at 0. -/
theorem performAll_preserves_CurrentLevel_example :
    (exampleFilter.performAll
        [PublicCall.SetRegistrationFilter (some 9), PublicCall.SetInitialDeformationField none,
          PublicCall.SetNumberOfIterations [3, 4], PublicCall.GetNumberOfIterations,
          PublicCall.GetCurrentLevel]).state? =
      some { exampleFilter with
        MTime := 2, m_RegistrationFilter := some 9, m_NumberOfIterations := [3, 4] } ∧
    ({ exampleFilter with
        MTime := 2, m_RegistrationFilter := some 9, m_NumberOfIterations := [3, 4] } :
      MultiResolutionPDEDeformableRegistration).GetCurrentLevel = exampleFilter.GetCurrentLevel :=
  ⟨by decide,
    performAll_preserves_CurrentLevel exampleFilter
      [PublicCall.SetRegistrationFilter (some 9), PublicCall.SetInitialDeformationField none,
        PublicCall.SetNumberOfIterations [3, 4], PublicCall.GetNumberOfIterations,
        PublicCall.GetCurrentLevel] _ (by decide)⟩

end itk.MultiResolutionPDEDeformableRegistration

/-! The FEM image metric load. -/

namespace itk.fem.ImageMetricLoad

theorem performAll_append {RealType : Type} (s : ImageMetricLoad RealType)
    (calls more : List (PublicCall RealType)) :
    s.performAll (calls ++ more) = (s.performAll calls).performAll more := by
  induction calls generalizing s with
  | nil => rfl
  | cons c rest ih => exact ih (s.perform c)

theorem GetCurrentEnergy_perform {RealType : Type} (s : ImageMetricLoad RealType)
    (c : PublicCall RealType) (rest : List (PublicCall RealType)) :
    lastEnergy (s.perform c).GetCurrentEnergy rest = lastEnergy s.GetCurrentEnergy (c :: rest) := by
  cases c <;> rfl

/-- C8 at a failing input: on `exampleLoad`, whose energy is 0, the single public
call `SetCurrentEnergy( 42 )` makes `GetCurrentEnergy` return 42. -/
theorem GetCurrentEnergy_example_is_chosen :
    ∃ calls : List (PublicCall Int),
      exampleLoad.GetCurrentEnergy = 0 ∧ (exampleLoad.performAll calls).GetCurrentEnergy = 42 :=
  ⟨[PublicCall.SetCurrentEnergy 42], by decide⟩

/-- C8 as amended. The current energy is readable and writable by a caller:
after any sequence of the public member functions of lines 121-190,
`GetCurrentEnergy` returns the argument of the last `SetCurrentEnergy` of the
sequence, or what it returned before when the sequence has none; so a sequence
that ends in `SetCurrentEnergy( E )` makes it return `E`. -/
theorem GetCurrentEnergy_performAll {RealType : Type} (s : ImageMetricLoad RealType)
    (calls : List (PublicCall RealType)) :
    (s.performAll calls).GetCurrentEnergy = lastEnergy s.GetCurrentEnergy calls ∧
      ∀ E, (s.performAll (calls ++ [PublicCall.SetCurrentEnergy E])).GetCurrentEnergy = E := by
  refine ⟨?_, fun E => by rw [performAll_append]; rfl⟩
  induction calls generalizing s with
  | nil => rfl
  | cons c rest ih => rw [← GetCurrentEnergy_perform, ← ih]; rfl

/-- C9. Configuration round trip. For every load and every value, each getter
returns what its setter stored: the maximize flag, the number of integration
points, the current energy, the metric, the solution and the deformation field;
and setting a value twice leaves the load as setting it once does. -/
theorem get_set_roundtrip {RealType : Type} (s : ImageMetricLoad RealType) (b : Bool) (N : Nat)
    (E : RealType) (M S F : Pointer) :
    ((s.SetMaximizeMetric b).GetMaximizeMetric = b ∧
      (s.SetNumberOfIntegrationPoints N).GetNumberOfIntegrationPoints = N ∧
      (s.SetCurrentEnergy E).GetCurrentEnergy = E ∧
      (s.SetMetric M).GetMetric = M ∧
      (s.SetSolution S).GetSolution = S ∧
      (s.SetDeformationField F).GetDeformationField = F) ∧
    ((s.SetMaximizeMetric b).SetMaximizeMetric b = s.SetMaximizeMetric b ∧
      (s.SetNumberOfIntegrationPoints N).SetNumberOfIntegrationPoints N =
        s.SetNumberOfIntegrationPoints N ∧
      (s.SetCurrentEnergy E).SetCurrentEnergy E = s.SetCurrentEnergy E ∧
      (s.SetMetric M).SetMetric M = s.SetMetric M ∧
      (s.SetSolution S).SetSolution S = s.SetSolution S ∧
      (s.SetDeformationField F).SetDeformationField F = s.SetDeformationField F) :=
  ⟨⟨rfl, rfl, rfl, rfl, rfl, rfl⟩, ⟨rfl, rfl, rfl, rfl, rfl, rfl⟩⟩

/-- C12. Setter frame. Each of the eleven setters assigns its argument to one
member and is the load with that member replaced. A public call leaves every
member it does not assign to as it was; two public calls that assign to
different members give the same load in either order; and each getter returns
after a public call what it returned before, unless the call assigns to the
member the getter reads. -/
theorem setter_frame {RealType : Type} (s : ImageMetricLoad RealType) :
    ((∀ M, s.SetMetric M = { s with m_Metric := M }) ∧
      (∀ I, s.SetMovingImage I = { s with m_MovingImage := I }) ∧
      (∀ I, s.SetFixedImage I = { s with m_FixedImage := I }) ∧
      (∀ I, s.SetImageInterpolator I = { s with m_ImageInterpolator := I }) ∧
      (∀ R, s.SetMetricRadius R = { s with m_MetricRadius := R }) ∧
      (∀ N, s.SetNumberOfIntegrationPoints N = { s with m_NumberOfIntegrationPoints := N }) ∧
      (∀ r, s.SetGamma r = { s with m_Gamma := r }) ∧
      (∀ S, s.SetSolution S = { s with m_Solution := S }) ∧
      (∀ E, s.SetCurrentEnergy E = { s with m_Energy := E }) ∧
      (∀ b, s.SetMaximizeMetric b = { s with m_MaximizeMetric := b }) ∧
      (∀ F, s.SetDeformationField F = { s with m_DeformationField := F })) ∧
    (∀ (c : PublicCall RealType) (m : Member), c.assigns ≠ some m → sameAt s (s.perform c) m) ∧
    (∀ c1 c2 : PublicCall RealType, c1.assigns ≠ c2.assigns →
      (s.perform c1).perform c2 = (s.perform c2).perform c1) ∧
    (∀ c : PublicCall RealType,
      (c.assigns ≠ some Member.m_Metric → (s.perform c).GetMetric = s.GetMetric) ∧
      (c.assigns ≠ some Member.m_NumberOfIntegrationPoints →
        (s.perform c).GetNumberOfIntegrationPoints = s.GetNumberOfIntegrationPoints) ∧
      (c.assigns ≠ some Member.m_Solution → (s.perform c).GetSolution = s.GetSolution) ∧
      (c.assigns ≠ some Member.m_Energy → (s.perform c).GetCurrentEnergy = s.GetCurrentEnergy) ∧
      (c.assigns ≠ some Member.m_MaximizeMetric →
        (s.perform c).GetMaximizeMetric = s.GetMaximizeMetric) ∧
      (c.assigns ≠ some Member.m_DeformationField →
        (s.perform c).GetDeformationField = s.GetDeformationField)) := by
  have hframe : ∀ (c : PublicCall RealType) (m : Member), c.assigns ≠ some m →
      sameAt s (s.perform c) m := by
    intro c m h
    cases c <;> cases m <;> first | rfl | exact absurd rfl h
  refine ⟨⟨fun _ => rfl, fun _ => rfl, fun _ => rfl, fun _ => rfl, fun _ => rfl, fun _ => rfl,
    fun _ => rfl, fun _ => rfl, fun _ => rfl, fun _ => rfl, fun _ => rfl⟩, hframe, ?_, ?_⟩
  · intro c1 c2 h
    cases c1 <;> cases c2 <;> first | rfl | exact absurd rfl h
  · intro c
    exact ⟨fun h => (hframe c _ h).symm, fun h => (hframe c _ h).symm,
      fun h => (hframe c _ h).symm, fun h => (hframe c _ h).symm,
      fun h => (hframe c _ h).symm, fun h => (hframe c _ h).symm⟩

end itk.fem.ImageMetricLoad
